import Mathlib

/-!
Verification of the backend script API surface of the Trilium repository
(src/services/backend_script_api.js): a shallow embedding of
createOrUpdateLauncher (launcher reconciliation), createNote (composite
note creation), and the per-key coalescing log scheduler, together with
theorems settling the specified properties.

The entity-cache (becca), the special-notes launcher factory, the branch
service, the transaction runner and the SpacedUpdate debouncer are external
collaborators whose sources are not part of the verified surface; they are
modelled from the specification and each such definition is marked
"Modelled from the spec". Everything else is translated directly from
backend_script_api.js.
-/

set_option autoImplicit false

namespace TriliumApi

/-! ## Entity data model -/

/-- A note in the entity graph: stable id, title, type, mime and content.
Content is a JS value because scripts may hand objects to createNote. -/
structure BNote where
  noteId : String
  title : String
  type : String
  mime : String
  content : String
deriving Repr, DecidableEq

/-- A branch attaching a note under a parent note. -/
structure BBranch where
  branchId : String
  noteId : String
  parentNoteId : String
deriving Repr, DecidableEq

/-- A typed attribute (label or relation) owned by a note. -/
structure BAttribute where
  attributeId : String
  noteId : String
  type : String
  name : String
  value : String
  isInheritable : Bool
deriving Repr, DecidableEq

/-- Modelled from the spec: the in-memory entity cache (becca) holding the
materialized graph of notes, branches and attributes; the single source of
truth for existence checks. -/
structure Becca where
  notes : List BNote
  branches : List BBranch
  attributes : List BAttribute
deriving Repr, DecidableEq

def emptyBecca : Becca := ⟨[], [], []⟩

/-- Modelled from the spec: becca.getNote, entity lookup by id. -/
def getNote (b : Becca) (noteId : String) : Option BNote :=
  b.notes.find? (fun n => n.noteId == noteId)

/-- Modelled from the spec: note.getParentBranches, the branches attaching
this note under its parents. -/
def getParentBranches (b : Becca) (noteId : String) : List BBranch :=
  b.branches.filter (fun br => br.noteId == noteId)

/-- Modelled from the spec: setting a note title and saving the entity
updates the cached note in place. -/
def saveTitle (b : Becca) (noteId title : String) : Becca :=
  { b with notes := b.notes.map (fun n =>
      if n.noteId == noteId then { n with title := title } else n) }

/-- Modelled from the spec: branchService.moveBranchToNote performs a
structural relocation of an existing branch to a new parent (the same
branch is re-parented, not deleted and recreated). -/
def moveBranchToNote (b : Becca) (branchId newParentNoteId : String) : Becca :=
  { b with branches := b.branches.map (fun br =>
      if br.branchId == branchId then { br with parentNoteId := newParentNoteId } else br) }

/-- Whether an attribute is an owned attribute of the note with the given
type and name. -/
def attrMatches (noteId ty name : String) (a : BAttribute) : Bool :=
  a.noteId == noteId && a.type == ty && a.name == name

/-- Modelled from the spec: the shared upsert discipline of note.setRelation
and note.setLabel — overwrite the value of the first owned attribute of
the given type and name, creating it (with a deterministic fresh id) when
absent. -/
def upsertAttr (noteId ty name value freshId : String) : List BAttribute → List BAttribute
  | [] => [⟨freshId, noteId, ty, name, value, false⟩]
  | a :: rest =>
    if attrMatches noteId ty name a then
      { a with value := value } :: rest
    else
      a :: upsertAttr noteId ty name value freshId rest

/-- Modelled from the spec: note.setRelation overwrites the value of the
first owned relation of the given name, creating it when absent. -/
def setRelation (b : Becca) (noteId name value : String) : Becca :=
  { b with attributes :=
      upsertAttr noteId "relation" name value (noteId ++ "_rel_" ++ name) b.attributes }

/-- Modelled from the spec: note.setLabel overwrites the value of the first
owned label of the given name, creating it when absent. -/
def setLabel (b : Becca) (noteId name value : String) : Becca :=
  { b with attributes :=
      upsertAttr noteId "label" name value (noteId ++ "_lab_" ++ name) b.attributes }

/-- Modelled from the spec: note.removeLabel deletes every owned label of
the given name. -/
def removeLabel (b : Becca) (noteId name : String) : Becca :=
  { b with attributes := b.attributes.filter (fun a =>
      !(attrMatches noteId "label" name a)) }

/-- Modelled from the spec: specialNotesService.createLauncher creates a
fresh launcher note of the reserved launcher type together with its single
branch under the requested container. -/
def createLauncher (b : Becca) (noteId parentNoteId launcherType : String) : Becca × BNote :=
  let note : BNote := ⟨noteId, "", "launcher", "", ""⟩
  ({ b with
      notes := b.notes ++ [note]
      branches := b.branches ++ [⟨parentNoteId ++ "_" ++ noteId, noteId, parentNoteId⟩]
      attributes := b.attributes ++
        [⟨noteId ++ "_lab_launcherType", noteId, "label", "launcherType", launcherType, false⟩] },
   note)

/-! ## JS-side helpers -/

/-- Exceptions thrown by the script API: a thrown Error(msg), or the
runtime TypeError raised by dereferencing a missing object. -/
inductive JsException where
  | jsError : String → JsException
  | typeError : String → JsException
deriving Repr, DecidableEq

/-- JS truthiness of an optional string: undefined and the empty string are
falsy. -/
def strTruthy : Option String → Bool
  | none => false
  | some s => s ≠ ""

/-- ASCII alphanumeric, the character class [a-z0-9] under the i flag. -/
def isAlnumChar (c : Char) : Bool := c.isAlpha || c.isDigit

/-- The next n characters exist and are all alphanumeric. -/
def alnumRunAt : Nat → List Char → Bool
  | 0, _ => true
  | _ + 1, [] => false
  | n + 1, c :: rest => isAlnumChar c && alnumRunAt n rest

/-- Some suffix starts with a run of n alphanumeric characters: the
semantics of an unanchored regex search for [a-z0-9]\x7bn,\x7d. -/
def hasAlnumRun (n : Nat) : List Char → Bool
  | [] => alnumRunAt n []
  | c :: rest => alnumRunAt n (c :: rest) || hasAlnumRun n rest

/-- opts.id.match(/[a-z0-9]\x7b6,1000\x7d/i) is non-null exactly when the id
contains a run of at least 6 ASCII alphanumeric characters (any run of
1000 or more still contains a 1000-character match). -/
def idRegexTest (s : String) : Bool := hasAlnumRun 6 s.toList

/-! ## createOrUpdateLauncher (backend_script_api.js lines 464-521) -/

/-- The opts object accepted by createOrUpdateLauncher; absent JS fields
are none. -/
structure LauncherOpts where
  id : Option String := none
  type : Option String := none
  title : Option String := none
  isVisible : Bool := false
  icon : Option String := none
  keyboardShortcut : Option String := none
  targetNoteId : Option String := none
  scriptNoteId : Option String := none
  widgetNoteId : Option String := none
deriving Repr, DecidableEq

/-- Whitespace as stripped by the JS String trim used on titles. -/
def isJsWhitespace (c : Char) : Bool :=
  c = ' ' || c = '\t' || c = '\n' || c = '\r'

/-- Model of JS String.prototype.trim: strip leading and trailing
whitespace. -/
def jsTrim (s : String) : String :=
  String.mk (((s.toList.dropWhile isJsWhitespace).reverse.dropWhile isJsWhitespace).reverse)

/-- opts.title?.trim() is truthy: title present and non-empty after trim. -/
def titleTruthy : Option String → Bool
  | none => false
  | some s => jsTrim s ≠ ""

/-- The launcher-note ensure-and-title stage: reuse the existing note (or
create it fresh under the desired container), then diff the title and save
only if changed. A freshly created launcher note starts with an empty
title. -/
def launcherEnsureStage (noteId parentNoteId launcherType title : String) (b : Becca) : Becca :=
  match getNote b noteId with
  | some n => if n.title ≠ title then saveTitle b noteId title else b
  | none =>
    let b0 := (createLauncher b noteId parentNoteId launcherType).1
    if "" ≠ title then saveTitle b0 noteId title else b0

/-- The parent-container diff stage: when the launcher has exactly one
parent branch whose parent differs from the desired container, relocate
that branch. -/
def launcherBranchStage (noteId parentNoteId : String) (b : Becca) : Becca :=
  match getParentBranches b noteId with
  | [br] =>
    if br.parentNoteId ≠ parentNoteId then
      moveBranchToNote b br.branchId parentNoteId
    else b
  | _ => b

/-- The kind-specific relation stage: set exactly one of the
target/script/widget relations, or fail on an unrecognized type. -/
def launcherRelationStage (opts : LauncherOpts) (noteId : String) (b : Becca) :
    Except JsException Becca :=
  if opts.type == some "note" then
    .ok (setRelation b noteId "target" (opts.targetNoteId.getD ""))
  else if opts.type == some "script" then
    .ok (setRelation b noteId "script" (opts.scriptNoteId.getD ""))
  else if opts.type == some "customWidget" then
    .ok (setRelation b noteId "widget" (opts.widgetNoteId.getD ""))
  else
    .error (.jsError ("Unrecognized launcher type \x27" ++ opts.type.getD "" ++ "\x27"))

/-- The keyboardShortcut half of the optional-label stage: a supplied
value is set, an omitted one is removed. -/
def launcherShortcutStage (opts : LauncherOpts) (noteId : String) (b : Becca) : Becca :=
  if strTruthy opts.keyboardShortcut then
    setLabel b noteId "keyboardShortcut" (opts.keyboardShortcut.getD "")
  else removeLabel b noteId "keyboardShortcut"

/-- The icon half of the optional-label stage: a supplied value is set (as
a boxicon class), an omitted one is removed. -/
def launcherIconStage (opts : LauncherOpts) (noteId : String) (b : Becca) : Becca :=
  if strTruthy opts.icon then
    setLabel b noteId "iconClass" ("bx " ++ opts.icon.getD "")
  else removeLabel b noteId "iconClass"

/-- The optional-label stage: keyboardShortcut first, then icon, each
reconciled by presence. -/
def launcherLabelStage (opts : LauncherOpts) (noteId : String) (b : Becca) : Becca :=
  launcherIconStage opts noteId (launcherShortcutStage opts noteId b)

/-- The reconciliation pipeline of createOrUpdateLauncher over a given
launcher note id and desired parent container. -/
def launcherCore (opts : LauncherOpts) (noteId parentNoteId : String) (b : Becca) :
    Except JsException (Becca × String) :=
  let b1 := launcherEnsureStage noteId parentNoteId (opts.type.getD "") (opts.title.getD "") b
  let b2 := launcherBranchStage noteId parentNoteId b1
  match launcherRelationStage opts noteId b2 with
  | .error e => .error e
  | .ok b3 => .ok (launcherLabelStage opts noteId b3, noteId)

/-- The reconciliation body of createOrUpdateLauncher, after validation:
the entity id is derived deterministically from opts.id and the container
from opts.isVisible. -/
def launcherBody (opts : LauncherOpts) (b : Becca) : Except JsException (Becca × String) :=
  launcherCore opts ("al_" ++ opts.id.getD "")
    (if opts.isVisible then "_lbVisibleLaunchers" else "_lbAvailableLaunchers") b

/-- Embedding of api.createOrUpdateLauncher: validation, then idempotent
reconciliation of the launcher note, its parent branch, its kind-specific
relation and its optional labels, over the entity cache state. Returns the
new state and the launcher note id. -/
def createOrUpdateLauncher (opts : LauncherOpts) (b : Becca) :
    Except JsException (Becca × String) :=
  if !strTruthy opts.id then
    .error (.jsError "ID is a mandatory parameter for api.createOrUpdateLauncher(opts)")
  else if !idRegexTest (opts.id.getD "") then
    .error (.jsError "ID must be an alphanumeric string at least 6 characters long.")
  else if !strTruthy opts.type then
    .error (.jsError "Launcher Type is a mandatory parameter for api.createOrUpdateLauncher(opts)")
  else if !(["note", "script", "customWidget"].contains (opts.type.getD "")) then
    .error (.jsError ("Given launcher type \x27" ++ opts.type.getD "" ++ "\x27"))
  else if !titleTruthy opts.title then
    .error (.jsError "Title is a mandatory parameter for api.createOrUpdateLauncher(opts)")
  else if opts.type == some "note" && !strTruthy opts.targetNoteId then
    .error (.jsError "targetNoteId is mandatory for launchers of type \x27note\x27")
  else if opts.type == some "script" && !strTruthy opts.scriptNoteId then
    .error (.jsError "scriptNoteId is mandatory for launchers of type \x27script\x27")
  else if opts.type == some "customWidget" && !strTruthy opts.widgetNoteId then
    .error (.jsError "widgetNoteId is mandatory for launchers of type \x27customWidget\x27")
  else
    launcherBody opts b

/-! ## JS values and JSON serialization -/

/-- A JavaScript value as passed to createNote for content. -/
inductive JsVal where
  | str : String → JsVal
  | num : Int → JsVal
  | bool : Bool → JsVal
  | null : JsVal
  | obj : List (String × JsVal) → JsVal
  | arr : List JsVal → JsVal

/-- JS truthiness of a content value: null, false, 0 and "" are falsy. -/
def jsTruthy : JsVal → Bool
  | .str s => s ≠ ""
  | .num i => i ≠ 0
  | .bool b => b
  | .null => false
  | .obj _ => true
  | .arr _ => true

/-- Modelled from the spec: JSON string escaping as performed by the
serializer for the common escapes. -/
def escapeJsonChar (c : Char) : String :=
  if c = '"' then "\\\""
  else if c = '\\' then "\\\\"
  else if c = '\n' then "\\n"
  else if c = '\t' then "\\t"
  else if c = '\r' then "\\r"
  else String.singleton c

def escapeJsonString (s : String) : String :=
  String.join (s.toList.map escapeJsonChar)

/-- d tab characters, the indentation of JSON.stringify(v, null, tab). -/
def indentStr (d : Nat) : String := String.join (List.replicate d "\t")

mutual

/-- Modelled from the spec: JSON.stringify(v, null, tab) — serialization
with stable (insertion-order) key ordering and tab indentation. -/
def stringifyVal : Nat → JsVal → String
  | _, .str s => "\"" ++ escapeJsonString s ++ "\""
  | _, .num i => toString i
  | _, .bool b => if b then "true" else "false"
  | _, .null => "null"
  | _, .obj [] => "\x7b\x7d"
  | d, .obj (f :: fs) =>
    "\x7b\n" ++ stringifyFields (d + 1) (f :: fs) ++ "\n" ++ indentStr d ++ "\x7d"
  | _, .arr [] => "[]"
  | d, .arr (v :: vs) =>
    "[\n" ++ stringifyElems (d + 1) (v :: vs) ++ "\n" ++ indentStr d ++ "]"

def stringifyFields : Nat → List (String × JsVal) → String
  | _, [] => ""
  | d, [(k, v)] =>
    indentStr d ++ "\"" ++ escapeJsonString k ++ "\": " ++ stringifyVal d v
  | d, (k, v) :: f :: fs =>
    indentStr d ++ "\"" ++ escapeJsonString k ++ "\": " ++ stringifyVal d v ++
      ",\n" ++ stringifyFields d (f :: fs)

def stringifyElems : Nat → List JsVal → String
  | _, [] => ""
  | d, [v] => indentStr d ++ stringifyVal d v
  | d, v :: w :: vs =>
    indentStr d ++ stringifyVal d v ++ ",\n" ++ stringifyElems d (w :: vs)

end

/-- JSON.stringify(x, null, tab) at top level. -/
def jsonStringifyTab (v : JsVal) : String := stringifyVal 0 v

/-! ## createNote (backend_script_api.js lines 241-275) -/

/-- One entry of extraOptions.attributes. -/
structure AttrSpec where
  type : String
  name : String
  value : Option String := none
  isInheritable : Bool := false
deriving Repr, DecidableEq

/-- The caller-supplied extraOptions object; createNote mutates it in
place. -/
structure ExtraOptions where
  parentNoteId : Option String := none
  title : Option String := none
  type : Option String := none
  mime : Option String := none
  content : Option JsVal := none
  json : Bool := false
  isProtected : Bool := false
  attributes : List AttrSpec := []

/-- Modelled from the spec: the attribute-creation capability
createAttribute(noteId, type, name, value, isInheritable); creation fails
on a malformed attribute (unknown attribute type or empty name). -/
def createAttribute (b : Becca) (noteId : String) (a : AttrSpec) :
    Except JsException Becca :=
  if !(a.type == "label" || a.type == "relation") then
    .error (.jsError ("Unknown attribute type \x27" ++ a.type ++ "\x27"))
  else if a.name == "" then
    .error (.jsError "Attribute name must be non-empty")
  else
    .ok { b with attributes := b.attributes ++
      [⟨noteId ++ "_attr" ++ toString b.attributes.length, noteId,
        a.type, a.name, a.value.getD "", a.isInheritable⟩] }

/-- Modelled from the spec: note content is a string (the createComposite
signature takes content string or bytes); a string value is stored as
given, anything else is outside the modelled surface and stored empty. -/
def contentString : Option JsVal → String
  | some (.str s) => s
  | _ => ""

/-- Modelled from the spec: noteService.createNewNote creates the note and
its initial branch as directed by the options object, inserting both into
the entity cache. Fresh ids are drawn deterministically from the state. -/
def createNewNote (b : Becca) (eo : ExtraOptions) : Becca × BNote × BBranch :=
  let note : BNote :=
    ⟨"note" ++ toString b.notes.length, eo.title.getD "", eo.type.getD "",
     eo.mime.getD "", contentString eo.content⟩
  let branch : BBranch :=
    ⟨"branch" ++ toString b.branches.length, note.noteId, eo.parentNoteId.getD ""⟩
  ({ b with notes := b.notes ++ [note], branches := b.branches ++ [branch] }, note, branch)

/-- Modelled from the spec: sql.transactional — the reentrant atomic
unit-of-work primitive; if the unit fails, none of its mutations persist
and the pre-state is observable afterward (all-or-nothing). -/
def transactional {α : Type} (g : Becca → Except JsException (Becca × α)) (b : Becca) :
    Becca × Except JsException α :=
  match g b with
  | .ok (b2, a) => (b2, .ok a)
  | .error e => (b, .error e)

/-- The attribute-creation loop of createNote, in list order. -/
def createAttributesLoop (noteId : String) (b : Becca) :
    List AttrSpec → Except JsException Becca
  | [] => .ok b
  | a :: rest =>
    match createAttribute b noteId a with
    | .ok b2 => createAttributesLoop noteId b2 rest
    | .error e => .error e

/-- The result of a createNote call: the mutated extraOptions object, the
observable entity-cache state, and either the created entities or the
thrown exception. -/
structure CreateNoteOut where
  eo : ExtraOptions
  becca : Becca
  result : Except JsException (BNote × BBranch)

/-- The message of the TypeError raised by reading .type off the null
returned for a missing parent note. -/
def nullDerefMsg : String :=
  "Cannot read properties of null (reading \x27type\x27)"

/-- The in-place rewriting of the caller's extraOptions performed by
createNote once the parent note resolved: parentNoteId and title are
written, type/mime are resolved from the parent (code is inherited,
otherwise text/html), and a JSON request forces code/application-json with
serialized content, while a plain request stores the given content. -/
def resolveNoteOptions (parentNoteId title : String) (content : JsVal)
    (extraOptions : ExtraOptions) (parentNote : BNote) : ExtraOptions :=
  let eo1 := { extraOptions with parentNoteId := some parentNoteId, title := some title }
  let eo2 := { eo1 with
    type := some (if parentNote.type == "code" then "code" else "text")
    mime := some (if parentNote.type == "code" then parentNote.mime else "text/html") }
  if eo2.json then
    { eo2 with
      content := some (.str (jsonStringifyTab
        (if jsTruthy content then content else .obj [])))
      type := some "code"
      mime := some "application/json" }
  else
    { eo2 with content := some content }

/-- The transactional unit of createNote: create the note and its branch,
then every attribute of the list in order; an attribute failure aborts the
whole unit. -/
def createNoteTx (eo3 : ExtraOptions) (b : Becca) :
    Becca × Except JsException (BNote × BBranch) :=
  transactional (fun bIn =>
    let (bNew, note, branch) := createNewNote bIn eo3
    match createAttributesLoop note.noteId bNew eo3.attributes with
    | .ok bDone => .ok (bDone, (note, branch))
    | .error e => .error e) b

/-- Embedding of api.createNote: writes the computed fields onto the
caller's extraOptions object, resolves type/mime from the parent note,
serializes JSON content on request, then creates note, branch and
attributes as one transactional unit. Dereferencing the type of a missing
parent raises a TypeError with extraOptions already partially written. -/
def createNote (parentNoteId title : String) (content : JsVal)
    (extraOptions : ExtraOptions) (b : Becca) : CreateNoteOut :=
  match getNote b parentNoteId with
  | none =>
    ⟨{ extraOptions with parentNoteId := some parentNoteId, title := some title }, b,
      .error (.typeError nullDerefMsg)⟩
  | some parentNote =>
    let eo3 := resolveNoteOptions parentNoteId title content extraOptions parentNote
    let (b2, res) := createNoteTx eo3 b
    ⟨eo3, b2, res⟩

/-! ## The coalescing log scheduler (backend_script_api.js lines 277-306) -/

/-- Association-list lookup by string key. -/
def getAssoc {α : Type} (k : String) : List (String × α) → Option α
  | [] => none
  | (k2, v) :: rest => if k2 == k then some v else getAssoc k rest

/-- Association-list update by string key, appending when absent: the
semantics of assigning to a JS object property. -/
def setAssoc {α : Type} (k : String) (v : α) : List (String × α) → List (String × α)
  | [] => [(k, v)]
  | (k2, v2) :: rest => if k2 == k then (k, v) :: rest else (k2, v2) :: setAssoc k v rest

/-- One event handed to the transport fan-out primitive
ws.sendMessageToAllClients. -/
structure LogEvent where
  type : String
  noteId : String
  messages : List String
deriving Repr, DecidableEq

/-- The scheduler state: this.logMessages (pending message sequences per
key), this.logSpacedUpdates modelled from the spec as the per-key armed
flag of the SpacedUpdate debouncer, and the ordered list of events emitted
to the transport so far. -/
structure SchedState where
  logMessages : List (String × List String)
  logSpacedUpdates : List (String × Bool)
  events : List LogEvent
deriving Repr, DecidableEq

def schedInit : SchedState := ⟨[], [], []⟩

/-- The pending message sequence for a key. -/
def pendingOf (s : SchedState) (k : String) : List String :=
  (getAssoc k s.logMessages).getD []

/-- Whether a flush is scheduled for the key. -/
def armedOf (s : SchedState) (k : String) : Bool :=
  (getAssoc k s.logSpacedUpdates).getD false

/-- Embedding of the body of api.log for a given key: ensure the pending
entry and the SpacedUpdate exist, append the message, and schedule an
update (arm the debounce timer). -/
def notifyStep (k m : String) (s : SchedState) : SchedState :=
  let pending := pendingOf s k
  { s with
    logMessages := setAssoc k (pending ++ [m]) s.logMessages
    logSpacedUpdates := setAssoc k true s.logSpacedUpdates }

/-- Timer fire for a key: modelled from the spec, the SpacedUpdate only
runs its updater when an update is scheduled; the updater itself is the
closure from api.log — swap out the whole pending sequence for the key and
broadcast it as one batched event. -/
def fireStep (k : String) (s : SchedState) : SchedState :=
  if armedOf s k then
    let messages := pendingOf s k
    { logMessages := setAssoc k [] s.logMessages
      logSpacedUpdates := setAssoc k false s.logSpacedUpdates
      events := s.events ++ [⟨"api-log-messages", k, messages⟩] }
  else s

/-- A step of the scheduler: a log call under some key, or a timer fire. -/
inductive SchedStep where
  | notify : String → String → SchedStep
  | fire : String → SchedStep

def applyStep (s : SchedState) : SchedStep → SchedState
  | .notify k m => notifyStep k m s
  | .fire k => fireStep k s

def runSteps (steps : List SchedStep) (s : SchedState) : SchedState :=
  steps.foldl applyStep s

/-- A step of one BackendScriptApi instance: api.log always files the
message under this.startNote.noteId, whatever note is current; timers may
fire for any key. -/
inductive ApiStep where
  | log : String → ApiStep
  | fire : String → ApiStep

/-- api.log of the instance whose startNote has the given id, plus timer
fires. -/
def applyApiStep (startNoteId : String) (s : SchedState) : ApiStep → SchedState
  | .log m => notifyStep startNoteId m s
  | .fire k => fireStep k s

def runApiSteps (startNoteId : String) (steps : List ApiStep) (s : SchedState) : SchedState :=
  steps.foldl (applyApiStep startNoteId) s

/-! ## Association-list lemmas -/

theorem getAssoc_setAssoc_self {α : Type} (k : String) (v : α) :
    ∀ l : List (String × α), getAssoc k (setAssoc k v l) = some v
  | [] => by simp [setAssoc, getAssoc]
  | (k2, v2) :: rest => by
    by_cases h : k2 == k
    · simp [setAssoc, getAssoc, h]
    · simp only [setAssoc, h, if_false, Bool.false_eq_true, getAssoc]
      exact getAssoc_setAssoc_self k v rest

theorem getAssoc_setAssoc_ne {α : Type} (k k2 : String) (v : α) (hne : k2 ≠ k) :
    ∀ l : List (String × α), getAssoc k2 (setAssoc k v l) = getAssoc k2 l
  | [] => by
    have hkk : (k == k2) = false := by
      simp only [beq_eq_false_iff_ne, ne_eq]
      exact fun hh => hne hh.symm
    simp [setAssoc, getAssoc, hkk]
  | (k3, v3) :: rest => by
    by_cases h : k3 == k
    · have hk3 : k3 = k := by simpa using h
      subst hk3
      have hkk : (k3 == k2) = false := by
        simp only [beq_eq_false_iff_ne, ne_eq]
        exact fun hh => hne hh.symm
      simp [setAssoc, getAssoc, h, hkk]
    · simp only [setAssoc, h, Bool.false_eq_true, if_false, getAssoc]
      by_cases h2 : k3 == k2
      · simp [h2]
      · simp only [h2, Bool.false_eq_true, if_false]
        exact getAssoc_setAssoc_ne k k2 v hne rest

theorem filter_setAssoc {α : Type} (k : String) (v : α) :
    ∀ l : List (String × α),
      (setAssoc k v l).filter (fun p => !(p.1 == k)) = l.filter (fun p => !(p.1 == k))
  | [] => by simp [setAssoc]
  | (k2, v2) :: rest => by
    by_cases h : k2 == k
    · simp [setAssoc, h, List.filter]
    · simp only [setAssoc, h, Bool.false_eq_true, if_false, List.filter, Bool.not_false]
      rw [filter_setAssoc k v rest]

theorem setAssoc_all {α : Type} (k : String) (v : α) :
    ∀ l : List (String × α), l.all (fun p => p.1 == k) = true →
      (setAssoc k v l).all (fun p => p.1 == k) = true
  | [], _ => by simp [setAssoc]
  | (k2, v2) :: rest, h => by
    simp only [List.all_cons, Bool.and_eq_true] at h
    by_cases hk : k2 == k
    · simp only [setAssoc, hk, if_true, List.all_cons, Bool.and_eq_true]
      exact ⟨by simp, h.2⟩
    · exact absurd h.1 (by simpa using hk)

theorem getAssoc_eq_of_all {α : Type} (k k0 : String) (v : α) :
    ∀ l : List (String × α), getAssoc k l = some v →
      l.all (fun p => p.1 == k0) = true → k = k0
  | [], hg, _ => by simp [getAssoc] at hg
  | (k2, v2) :: rest, hg, h => by
    simp only [List.all_cons, Bool.and_eq_true] at h
    by_cases hk : k2 == k
    · have hk2 : k2 = k := by simpa using hk
      have hk20 : k2 = k0 := by simpa using h.1
      exact hk2 ▸ hk20
    · simp only [getAssoc, hk, Bool.false_eq_true, if_false] at hg
      exact getAssoc_eq_of_all k k0 v rest hg h.2

/-! ## Scheduler invariant: a key is armed exactly when it has pending
messages -/

def SchedInv (s : SchedState) : Prop :=
  ∀ k, armedOf s k = !(pendingOf s k).isEmpty

theorem schedInv_init : SchedInv schedInit := by
  intro k
  simp [schedInit, armedOf, pendingOf, getAssoc]

theorem schedInv_notify (k0 m : String) (s : SchedState) (h : SchedInv s) :
    SchedInv (notifyStep k0 m s) := by
  intro k
  by_cases hk : k = k0
  · subst hk
    simp [notifyStep, armedOf, pendingOf, getAssoc_setAssoc_self]
  · simp only [notifyStep, armedOf, pendingOf,
      getAssoc_setAssoc_ne k0 k _ hk s.logMessages,
      getAssoc_setAssoc_ne k0 k _ hk s.logSpacedUpdates]
    exact h k

theorem schedInv_fire (k0 : String) (s : SchedState) (h : SchedInv s) :
    SchedInv (fireStep k0 s) := by
  intro k
  unfold fireStep
  by_cases harm : armedOf s k0 = true
  · rw [if_pos harm]
    by_cases hk : k = k0
    · subst hk
      simp [armedOf, pendingOf, getAssoc_setAssoc_self]
    · simp only [armedOf, pendingOf,
        getAssoc_setAssoc_ne k0 k _ hk s.logMessages,
        getAssoc_setAssoc_ne k0 k _ hk s.logSpacedUpdates]
      exact h k
  · rw [if_neg harm]
    exact h k

theorem schedInv_step (s : SchedState) (st : SchedStep) (h : SchedInv s) :
    SchedInv (applyStep s st) := by
  cases st with
  | notify k m => exact schedInv_notify k m s h
  | fire k => exact schedInv_fire k s h

theorem schedInv_runSteps (steps : List SchedStep) :
    ∀ s : SchedState, SchedInv s → SchedInv (runSteps steps s) := by
  induction steps with
  | nil => intro s h; simpa [runSteps] using h
  | cons st rest ih =>
    intro s h
    have : runSteps (st :: rest) s = runSteps rest (applyStep s st) := by
      simp [runSteps, List.foldl_cons]
    rw [this]
    exact ih _ (schedInv_step s st h)

theorem schedInv_reachable (steps : List SchedStep) : SchedInv (runSteps steps schedInit) :=
  schedInv_runSteps steps schedInit schedInv_init

/-- C4: in every reachable scheduler state, a timer fire for a key swaps
out that key's entire pending sequence (resetting it to empty) and
delivers it as exactly one broadcast event holding all pending messages in
call order; if the pending sequence is empty at fire time no event is
delivered (the state is untouched); and the fire never changes any other
key's pending sequence. -/
theorem timer_fire_flushes_whole_batch_once (steps : List SchedStep) (k : String) :
    (pendingOf (runSteps steps schedInit) k ≠ [] →
      (fireStep k (runSteps steps schedInit)).events =
        (runSteps steps schedInit).events ++
          [⟨"api-log-messages", k, pendingOf (runSteps steps schedInit) k⟩] ∧
      pendingOf (fireStep k (runSteps steps schedInit)) k = [] ∧
      (fireStep k (runSteps steps schedInit)).logMessages.filter (fun p => !(p.1 == k)) =
        (runSteps steps schedInit).logMessages.filter (fun p => !(p.1 == k))) ∧
    (pendingOf (runSteps steps schedInit) k = [] →
      fireStep k (runSteps steps schedInit) = runSteps steps schedInit) := by
  have hinv := schedInv_reachable steps
  constructor
  · intro hne
    have harm : armedOf (runSteps steps schedInit) k = true := by
      rw [hinv k]
      simpa [List.isEmpty_iff] using hne
    unfold fireStep
    rw [if_pos harm]
    refine ⟨rfl, ?_, ?_⟩
    · simp [pendingOf, getAssoc_setAssoc_self]
    · exact filter_setAssoc k [] (runSteps steps schedInit).logMessages
  · intro heq
    have harm : armedOf (runSteps steps schedInit) k = false := by
      rw [hinv k]
      simp [heq]
    unfold fireStep
    rw [if_neg (by simp [harm])]

/-- A demonstration trace: two messages coalesce under n1 while n2 has its
own independent pending message. -/
def c4DemoSteps : List SchedStep :=
  [.notify "n1" "m1", .notify "n1" "m2", .notify "n2" "m3"]

/-- Witness for C4 at a concrete reachable state: firing n1 emits one
batched event with both n1 messages and leaves n2 pending untouched;
firing the never-notified key n3 changes nothing. -/
theorem timer_fire_flushes_whole_batch_once_witness :
    (pendingOf (runSteps c4DemoSteps schedInit) "n1" ≠ [] ∧
      ((fireStep "n1" (runSteps c4DemoSteps schedInit)).events =
        (runSteps c4DemoSteps schedInit).events ++
          [⟨"api-log-messages", "n1", pendingOf (runSteps c4DemoSteps schedInit) "n1"⟩] ∧
      pendingOf (fireStep "n1" (runSteps c4DemoSteps schedInit)) "n1" = [] ∧
      (fireStep "n1" (runSteps c4DemoSteps schedInit)).logMessages.filter
          (fun p => !(p.1 == "n1")) =
        (runSteps c4DemoSteps schedInit).logMessages.filter (fun p => !(p.1 == "n1")))) ∧
    (pendingOf (runSteps c4DemoSteps schedInit) "n3" = [] ∧
      fireStep "n3" (runSteps c4DemoSteps schedInit) = runSteps c4DemoSteps schedInit) :=
  ⟨⟨by decide, (timer_fire_flushes_whole_batch_once c4DemoSteps "n1").1 (by decide)⟩,
   ⟨by decide, (timer_fire_flushes_whole_batch_once c4DemoSteps "n3").2 (by decide)⟩⟩

/-! ## C10: the api.log key is always startNote.noteId -/

/-- All per-key state of the scheduler sits under the single key k0. -/
def OnlyKey (k0 : String) (s : SchedState) : Prop :=
  s.logMessages.all (fun p => p.1 == k0) = true ∧
  s.logSpacedUpdates.all (fun p => p.1 == k0) = true

theorem onlyKey_init (k0 : String) : OnlyKey k0 schedInit := by
  constructor <;> simp [schedInit]

theorem onlyKey_apiStep (k0 : String) (s : SchedState) (st : ApiStep)
    (h : OnlyKey k0 s) : OnlyKey k0 (applyApiStep k0 s st) := by
  cases st with
  | log m =>
    exact ⟨setAssoc_all k0 _ s.logMessages h.1, setAssoc_all k0 _ s.logSpacedUpdates h.2⟩
  | fire k =>
    show OnlyKey k0 (fireStep k s)
    unfold fireStep
    by_cases harm : armedOf s k = true
    · rw [if_pos harm]
      have hsome : getAssoc k s.logSpacedUpdates = some true := by
        unfold armedOf at harm
        cases hg : getAssoc k s.logSpacedUpdates with
        | none => rw [hg] at harm; simp at harm
        | some v => rw [hg] at harm; simp at harm; rw [harm]
      have hk : k = k0 := getAssoc_eq_of_all k k0 true s.logSpacedUpdates hsome h.2
      subst hk
      exact ⟨setAssoc_all k _ s.logMessages h.1, setAssoc_all k _ s.logSpacedUpdates h.2⟩
    · rw [if_neg harm]
      exact h

/-- C10: for one BackendScriptApi instance, every sequence of api.log
calls (with timer fires interleaved) accumulates and flushes under the
single key startNote.noteId: the keys of this.logMessages and of
this.logSpacedUpdates only ever contain that one id. -/
theorem log_keys_are_always_startNote (startNoteId : String) (steps : List ApiStep) :
    ((runApiSteps startNoteId steps schedInit).logMessages.all
        (fun p => p.1 == startNoteId) = true) ∧
    ((runApiSteps startNoteId steps schedInit).logSpacedUpdates.all
        (fun p => p.1 == startNoteId) = true) := by
  have main : ∀ s : SchedState, OnlyKey startNoteId s →
      OnlyKey startNoteId (runApiSteps startNoteId steps s) := by
    induction steps with
    | nil => intro s h; simpa [runApiSteps] using h
    | cons st rest ih =>
      intro s h
      have hstep : runApiSteps startNoteId (st :: rest) s =
          runApiSteps startNoteId rest (applyApiStep startNoteId s st) := by
        simp [runApiSteps, List.foldl_cons]
      rw [hstep]
      exact ih _ (onlyKey_apiStep startNoteId s st h)
  exact main schedInit (onlyKey_init startNoteId)

/-! ## createNote lemmas and theorems -/

theorem createNote_none (parentNoteId title : String) (content : JsVal)
    (extraOptions : ExtraOptions) (b : Becca) (h : getNote b parentNoteId = none) :
    createNote parentNoteId title content extraOptions b =
      ⟨{ extraOptions with parentNoteId := some parentNoteId, title := some title }, b,
        .error (.typeError nullDerefMsg)⟩ := by
  unfold createNote
  rw [h]

theorem createNote_some (parentNoteId title : String) (content : JsVal)
    (extraOptions : ExtraOptions) (b : Becca) (pn : BNote)
    (h : getNote b parentNoteId = some pn) :
    createNote parentNoteId title content extraOptions b =
      ⟨resolveNoteOptions parentNoteId title content extraOptions pn,
        (createNoteTx (resolveNoteOptions parentNoteId title content extraOptions pn) b).1,
        (createNoteTx (resolveNoteOptions parentNoteId title content extraOptions pn) b).2⟩ := by
  unfold createNote
  rw [h]

/-- C7: when parentNoteId does not resolve to an existing note, createNote
fails synchronously with the reference-error kind raised by dereferencing
the missing parent, and the entity state is untouched: no note, branch or
attribute is created. -/
theorem createNote_missing_parent_fails_before_mutation
    (parentNoteId title : String) (content : JsVal)
    (extraOptions : ExtraOptions) (b : Becca) (h : getNote b parentNoteId = none) :
    (createNote parentNoteId title content extraOptions b).becca = b ∧
    (createNote parentNoteId title content extraOptions b).result =
      .error (.typeError nullDerefMsg) := by
  rw [createNote_none parentNoteId title content extraOptions b h]
  exact ⟨rfl, rfl⟩

/-- Witness for C7 on the empty cache. -/
theorem createNote_missing_parent_fails_before_mutation_witness :
    getNote emptyBecca "noSuchNote" = none ∧
    (createNote "noSuchNote" "T" (.str "hello") {} emptyBecca).becca = emptyBecca ∧
    (createNote "noSuchNote" "T" (.str "hello") {} emptyBecca).result =
      .error (.typeError nullDerefMsg) :=
  ⟨rfl, createNote_missing_parent_fails_before_mutation "noSuchNote" "T" (.str "hello")
    {} emptyBecca rfl⟩

/-- C6: the effective type and mime of the created note: a code parent is
inherited (type code, parent mime), any other parent gives text/html, and
a JSON request overrides both to code/application-json with the content
serialized from the supplied object (stable insertion-order keys, tab
indentation). -/
theorem createNote_type_mime_resolution
    (parentNoteId title : String) (content : JsVal) (extraOptions : ExtraOptions)
    (b : Becca) (pn : BNote) (note : BNote) (branch : BBranch)
    (h : getNote b parentNoteId = some pn)
    (hok : (createNote parentNoteId title content extraOptions b).result = .ok (note, branch)) :
    (extraOptions.json = false →
      (pn.type = "code" → note.type = "code" ∧ note.mime = pn.mime) ∧
      (pn.type ≠ "code" → note.type = "text" ∧ note.mime = "text/html")) ∧
    (extraOptions.json = true →
      note.type = "code" ∧ note.mime = "application/json" ∧
      note.content = jsonStringifyTab (if jsTruthy content then content else .obj [])) := by
  rw [createNote_some parentNoteId title content extraOptions b pn h] at hok
  simp only [createNoteTx, transactional, createNewNote] at hok
  set eo3 := resolveNoteOptions parentNoteId title content extraOptions pn with heo3
  have hjson : eo3.json = extraOptions.json := by
    rw [heo3]
    unfold resolveNoteOptions
    by_cases hj : extraOptions.json <;> simp [hj]
  cases hloop : createAttributesLoop ("note" ++ toString b.notes.length) _ eo3.attributes with
  | ok bDone =>
    rw [hloop] at hok
    simp only at hok
    have hnote : note = ⟨"note" ++ toString b.notes.length, eo3.title.getD "",
        eo3.type.getD "", eo3.mime.getD "", contentString eo3.content⟩ := by
      cases hok
      rfl
    constructor
    · intro hj
      have heo : eo3 = { extraOptions with
          parentNoteId := some parentNoteId, title := some title,
          type := some (if pn.type == "code" then "code" else "text"),
          mime := some (if pn.type == "code" then pn.mime else "text/html"),
          content := some content } := by
        rw [heo3]
        unfold resolveNoteOptions
        simp [hj]
      constructor
      · intro hcode
        rw [hnote, heo]
        simp [hcode]
      · intro hncode
        have hbeq : (pn.type == "code") = false := by
          simpa using hncode
        rw [hnote, heo]
        simp [hbeq]
    · intro hj
      have heo : eo3.type = some "code" ∧ eo3.mime = some "application/json" ∧
          eo3.content = some (.str (jsonStringifyTab
            (if jsTruthy content then content else .obj []))) := by
        rw [heo3]
        unfold resolveNoteOptions
        simp [hj]
      rw [hnote]
      refine ⟨by rw [heo.1]; rfl, by rw [heo.2.1]; rfl, ?_⟩
      show contentString eo3.content = _
      rw [heo.2.2]
      rfl
  | error e =>
    rw [hloop] at hok
    simp at hok

/-- A two-note cache used by several witnesses: a plain text note and a
code note. -/
def demoBecca : Becca :=
  ⟨[⟨"p1", "Parent", "text", "text/html", ""⟩,
    ⟨"pc", "CodeParent", "code", "application/js", ""⟩], [], []⟩

def c6CodeNote : BNote := ⟨"note2", "T", "code", "application/js", "hello"⟩

def c6CodeBranch : BBranch := ⟨"branch0", "note2", "pc"⟩

def c6JsonNote : BNote :=
  ⟨"note2", "T", "code", "application/json", jsonStringifyTab (.obj [("a", .num 1)])⟩

def c6JsonBranch : BBranch := ⟨"branch0", "note2", "p1"⟩

/-- Witness for C6: a child of the code parent inherits code and the
parent mime; a JSON request under the text parent forces
code/application-json and serialized content. -/
theorem createNote_type_mime_resolution_witness :
    (getNote demoBecca "pc" = some ⟨"pc", "CodeParent", "code", "application/js", ""⟩) ∧
    ((createNote "pc" "T" (.str "hello") {} demoBecca).result =
      .ok (c6CodeNote, c6CodeBranch)) ∧
    (c6CodeNote.type = "code" ∧ c6CodeNote.mime = "application/js") ∧
    ((createNote "p1" "T" (.obj [("a", .num 1)]) { json := true } demoBecca).result =
      .ok (c6JsonNote, c6JsonBranch)) ∧
    (c6JsonNote.type = "code" ∧ c6JsonNote.mime = "application/json" ∧
      c6JsonNote.content = jsonStringifyTab
        (if jsTruthy (.obj [("a", .num 1)]) then (.obj [("a", .num 1)]) else .obj [])) := by
  refine ⟨rfl, rfl, ?_, rfl, ?_⟩
  · exact ((createNote_type_mime_resolution "pc" "T" (.str "hello") {} demoBecca
      ⟨"pc", "CodeParent", "code", "application/js", ""⟩ c6CodeNote c6CodeBranch
      rfl rfl).1 rfl).1 rfl
  · exact (createNote_type_mime_resolution "p1" "T" (.obj [("a", .num 1)])
      { json := true } demoBecca ⟨"p1", "Parent", "text", "text/html", ""⟩
      c6JsonNote c6JsonBranch rfl rfl).2 rfl

/-! ## C2: transactional all-or-nothing createNote -/

/-- The condition under which the modelled attribute-creation capability
fails. -/
def attrSpecInvalid (a : AttrSpec) : Bool :=
  !(a.type == "label" || a.type == "relation") || a.name == ""

theorem createAttributesLoop_fails (noteId : String) :
    ∀ (l : List AttrSpec) (b : Becca), l.any attrSpecInvalid = true →
      ∃ e, createAttributesLoop noteId b l = .error e
  | [], _, h => by simp at h
  | a :: rest, b, h => by
    by_cases hbad : attrSpecInvalid a = true
    · have : createAttribute b noteId a =
          .error (if !(a.type == "label" || a.type == "relation") then
            .jsError ("Unknown attribute type \x27" ++ a.type ++ "\x27")
          else .jsError "Attribute name must be non-empty") := by
        unfold attrSpecInvalid at hbad
        unfold createAttribute
        by_cases h1 : (a.type == "label" || a.type == "relation") = true
        · simp only [h1, Bool.not_true, Bool.false_or] at hbad
          simp [h1, hbad]
        · have h1f : (a.type == "label" || a.type == "relation") = false := by
            simpa using h1
          simp [h1f]
      refine ⟨if !(a.type == "label" || a.type == "relation") then
          .jsError ("Unknown attribute type \x27" ++ a.type ++ "\x27")
        else .jsError "Attribute name must be non-empty", ?_⟩
      unfold createAttributesLoop
      rw [this]
    · have hgood : attrSpecInvalid a = false := by simpa using hbad
      have hrest : rest.any attrSpecInvalid = true := by
        simp only [List.any_cons, hgood, Bool.false_or] at h
        exact h
      unfold createAttributesLoop
      cases hc : createAttribute b noteId a with
      | ok b2 => exact createAttributesLoop_fails noteId rest b2 hrest
      | error e => exact ⟨e, rfl⟩

/-- The mutated extraOptions keeps the caller's attribute list. -/
theorem resolveNoteOptions_attributes (parentNoteId title : String) (content : JsVal)
    (extraOptions : ExtraOptions) (pn : BNote) :
    (resolveNoteOptions parentNoteId title content extraOptions pn).attributes =
      extraOptions.attributes := by
  unfold resolveNoteOptions
  by_cases hj : extraOptions.json <;> simp [hj]

/-- C2: if any attribute in the list is one the attribute-creation
capability rejects, the whole createNote unit rolls back: the observable
entity state equals the pre-state (neither the note nor its branch
persists) and the call reports failure. -/
theorem createNote_attribute_failure_rolls_back_all
    (parentNoteId title : String) (content : JsVal) (extraOptions : ExtraOptions)
    (b : Becca) (pn : BNote)
    (h : getNote b parentNoteId = some pn)
    (hbad : extraOptions.attributes.any attrSpecInvalid = true) :
    (createNote parentNoteId title content extraOptions b).becca = b ∧
    (createNote parentNoteId title content extraOptions b).result.isOk = false := by
  rw [createNote_some parentNoteId title content extraOptions b pn h]
  simp only [createNoteTx, transactional, createNewNote]
  have hattrs := resolveNoteOptions_attributes parentNoteId title content extraOptions pn
  obtain ⟨e, he⟩ := createAttributesLoop_fails ("note" ++ toString b.notes.length)
    (resolveNoteOptions parentNoteId title content extraOptions pn).attributes
    { b with
      notes := b.notes ++ [⟨"note" ++ toString b.notes.length,
        (resolveNoteOptions parentNoteId title content extraOptions pn).title.getD "",
        (resolveNoteOptions parentNoteId title content extraOptions pn).type.getD "",
        (resolveNoteOptions parentNoteId title content extraOptions pn).mime.getD "",
        contentString (resolveNoteOptions parentNoteId title content extraOptions pn).content⟩]
      branches := b.branches ++ [⟨"branch" ++ toString b.branches.length,
        "note" ++ toString b.notes.length,
        (resolveNoteOptions parentNoteId title content extraOptions pn).parentNoteId.getD ""⟩] }
    (by rw [hattrs]; exact hbad)
  rw [he]
  exact ⟨rfl, rfl⟩

/-- Witness for C2: a bad attribute type in the list leaves the cache
exactly as it was. -/
theorem createNote_attribute_failure_rolls_back_all_witness :
    getNote demoBecca "p1" = some ⟨"p1", "Parent", "text", "text/html", ""⟩ ∧
    ([(⟨"label", "good", some "v", false⟩ : AttrSpec),
      ⟨"badtype", "x", none, false⟩].any attrSpecInvalid = true) ∧
    (createNote "p1" "T" (.str "hello")
      { attributes := [⟨"label", "good", some "v", false⟩, ⟨"badtype", "x", none, false⟩] }
      demoBecca).becca = demoBecca ∧
    (createNote "p1" "T" (.str "hello")
      { attributes := [⟨"label", "good", some "v", false⟩, ⟨"badtype", "x", none, false⟩] }
      demoBecca).result.isOk = false :=
  ⟨rfl, rfl, createNote_attribute_failure_rolls_back_all "p1" "T" (.str "hello")
    { attributes := [⟨"label", "good", some "v", false⟩, ⟨"badtype", "x", none, false⟩] }
    demoBecca ⟨"p1", "Parent", "text", "text/html", ""⟩ rfl rfl⟩

/-! ## C9: createNote mutates the caller's extraOptions -/

/-- An extraOptions object prepopulated with exactly the values createNote
will compute for this call. -/
def c9PrefilledOpts : ExtraOptions :=
  { parentNoteId := some "p1", title := some "T", type := some "text",
    mime := some "text/html", content := some (.str "hello"), json := false,
    isProtected := false, attributes := [] }

/-- Counterexample to C9 as stated: on this call the caller's object does
not differ afterward — every field createNote writes already held the
value it writes, so the object is unchanged. -/
theorem createNote_extraOptions_unchanged_counterexample :
    (createNote "p1" "T" (.str "hello") c9PrefilledOpts demoBecca).eo = c9PrefilledOpts :=
  rfl

/-- C9 (amended): createNote writes parentNoteId, title, type, mime and
content onto the caller's extraOptions object, overwriting whatever the
caller had set there (while json and the attribute list are kept), so the
object differs afterward exactly when the caller's prior values differ
from the computed ones. -/
theorem createNote_writes_fields_onto_extraOptions
    (parentNoteId title : String) (content : JsVal) (extraOptions : ExtraOptions)
    (b : Becca) (pn : BNote) (h : getNote b parentNoteId = some pn) :
    (createNote parentNoteId title content extraOptions b).eo.parentNoteId = some parentNoteId ∧
    (createNote parentNoteId title content extraOptions b).eo.title = some title ∧
    (createNote parentNoteId title content extraOptions b).eo.type =
      some (if extraOptions.json then "code"
        else if pn.type == "code" then "code" else "text") ∧
    (createNote parentNoteId title content extraOptions b).eo.mime =
      some (if extraOptions.json then "application/json"
        else if pn.type == "code" then pn.mime else "text/html") ∧
    (createNote parentNoteId title content extraOptions b).eo.content =
      some (if extraOptions.json then
        .str (jsonStringifyTab (if jsTruthy content then content else .obj []))
      else content) ∧
    (createNote parentNoteId title content extraOptions b).eo.json = extraOptions.json ∧
    (createNote parentNoteId title content extraOptions b).eo.attributes =
      extraOptions.attributes := by
  rw [createNote_some parentNoteId title content extraOptions b pn h]
  show (resolveNoteOptions parentNoteId title content extraOptions pn).parentNoteId = _ ∧ _
  unfold resolveNoteOptions
  by_cases hj : extraOptions.json <;> simp [hj]

/-- Witness for C9 (amended): the computed values land on the object even
though the caller had set different ones. -/
theorem createNote_writes_fields_onto_extraOptions_witness :
    getNote demoBecca "p1" = some ⟨"p1", "Parent", "text", "text/html", ""⟩ ∧
    (createNote "p1" "T" (.str "hello")
      { type := some "weird", mime := some "application/pdf" } demoBecca).eo.parentNoteId =
        some "p1" ∧
    (createNote "p1" "T" (.str "hello")
      { type := some "weird", mime := some "application/pdf" } demoBecca).eo.type =
        some "text" ∧
    (createNote "p1" "T" (.str "hello")
      { type := some "weird", mime := some "application/pdf" } demoBecca).eo.mime =
        some "text/html" := by
  have happ := createNote_writes_fields_onto_extraOptions "p1" "T" (.str "hello")
    { type := some "weird", mime := some "application/pdf" } demoBecca
    ⟨"p1", "Parent", "text", "text/html", ""⟩ rfl
  exact ⟨rfl, happ.1, by simpa using happ.2.2.1, by simpa using happ.2.2.2.1⟩

/-! ## Attribute-list lemmas -/

/-- The first attribute of the note with this type and name exists and
carries this value. -/
def firstAttrIs (noteId ty name value : String) : List BAttribute → Prop
  | [] => False
  | a :: rest =>
    if attrMatches noteId ty name a then a.value = value
    else firstAttrIs noteId ty name value rest

/-- No attribute of the note with this type and name is present. -/
def noAttr (noteId ty name : String) (l : List BAttribute) : Prop :=
  ∀ a ∈ l, attrMatches noteId ty name a = false

theorem attrMatches_set_value (noteId ty name v : String) (a : BAttribute) :
    attrMatches noteId ty name { a with value := v } = attrMatches noteId ty name a := rfl

theorem firstAttrIs_upsertAttr (nid ty nm v fid : String) :
    ∀ l, firstAttrIs nid ty nm v (upsertAttr nid ty nm v fid l)
  | [] => by simp [upsertAttr, firstAttrIs, attrMatches]
  | a :: rest => by
    by_cases hm : attrMatches nid ty nm a = true
    · simp [upsertAttr, hm, firstAttrIs, attrMatches_set_value]
    · have hmf : attrMatches nid ty nm a = false := by simpa using hm
      simp only [upsertAttr, hmf, Bool.false_eq_true, if_false, firstAttrIs]
      exact firstAttrIs_upsertAttr nid ty nm v fid rest

theorem upsertAttr_of_firstAttrIs (nid ty nm v fid : String) :
    ∀ l, firstAttrIs nid ty nm v l → upsertAttr nid ty nm v fid l = l
  | [], h => absurd h (by simp [firstAttrIs])
  | a :: rest, h => by
    by_cases hm : attrMatches nid ty nm a = true
    · have hv : a.value = v := by simpa [firstAttrIs, hm] using h
      simp only [upsertAttr, hm, if_true]
      rw [← hv]
    · have hmf : attrMatches nid ty nm a = false := by simpa using hm
      have hrest : firstAttrIs nid ty nm v rest := by simpa [firstAttrIs, hmf] using h
      simp only [upsertAttr, hmf, Bool.false_eq_true, if_false]
      rw [upsertAttr_of_firstAttrIs nid ty nm v fid rest hrest]

/-- Matching the same note under two incompatible (type, name) pairs is
impossible. -/
theorem attrMatches_incompatible (nid ty nm nid2 ty2 nm2 : String) (a : BAttribute)
    (hdiff : ty ≠ ty2 ∨ nm ≠ nm2)
    (h1 : attrMatches nid ty nm a = true) : attrMatches nid2 ty2 nm2 a = false := by
  simp only [attrMatches, Bool.and_eq_true, beq_iff_eq] at h1
  cases hq : attrMatches nid2 ty2 nm2 a with
  | false => rfl
  | true =>
    simp only [attrMatches, Bool.and_eq_true, beq_iff_eq] at hq
    exfalso
    rcases hdiff with hd | hd
    · exact hd (h1.1.2.symm.trans hq.1.2)
    · exact hd (h1.2.symm.trans hq.2)

theorem firstAttrIs_upsertAttr_other (nid ty nm v nid2 ty2 nm2 v2 fid2 : String)
    (hdiff : ty ≠ ty2 ∨ nm ≠ nm2) :
    ∀ l, firstAttrIs nid ty nm v l →
      firstAttrIs nid ty nm v (upsertAttr nid2 ty2 nm2 v2 fid2 l)
  | [], h => absurd h (by simp [firstAttrIs])
  | a :: rest, h => by
    by_cases hm : attrMatches nid ty nm a = true
    · have hv : a.value = v := by simpa [firstAttrIs, hm] using h
      have hm2 : attrMatches nid2 ty2 nm2 a = false :=
        attrMatches_incompatible nid ty nm nid2 ty2 nm2 a hdiff hm
      simp only [upsertAttr, hm2, Bool.false_eq_true, if_false, firstAttrIs, hm, if_true]
      exact hv
    · have hmf : attrMatches nid ty nm a = false := by simpa using hm
      have hrest : firstAttrIs nid ty nm v rest := by simpa [firstAttrIs, hmf] using h
      by_cases hm2 : attrMatches nid2 ty2 nm2 a = true
      · simp only [upsertAttr, hm2, if_true, firstAttrIs, attrMatches_set_value, hmf,
          Bool.false_eq_true, if_false]
        exact hrest
      · have hm2f : attrMatches nid2 ty2 nm2 a = false := by simpa using hm2
        simp only [upsertAttr, hm2f, Bool.false_eq_true, if_false, firstAttrIs, hmf]
        exact firstAttrIs_upsertAttr_other nid ty nm v nid2 ty2 nm2 v2 fid2 hdiff rest hrest

theorem firstAttrIs_filter_other (nid ty nm v nid2 ty2 nm2 : String)
    (hdiff : ty ≠ ty2 ∨ nm ≠ nm2) :
    ∀ l, firstAttrIs nid ty nm v l →
      firstAttrIs nid ty nm v (l.filter (fun a => !(attrMatches nid2 ty2 nm2 a)))
  | [], h => absurd h (by simp [firstAttrIs])
  | a :: rest, h => by
    by_cases hm : attrMatches nid ty nm a = true
    · have hv : a.value = v := by simpa [firstAttrIs, hm] using h
      have hm2 : attrMatches nid2 ty2 nm2 a = false :=
        attrMatches_incompatible nid ty nm nid2 ty2 nm2 a hdiff hm
      simp only [List.filter_cons, hm2, Bool.not_false, if_true, firstAttrIs, hm]
      exact hv
    · have hmf : attrMatches nid ty nm a = false := by simpa using hm
      have hrest : firstAttrIs nid ty nm v rest := by simpa [firstAttrIs, hmf] using h
      have ih := firstAttrIs_filter_other nid ty nm v nid2 ty2 nm2 hdiff rest hrest
      by_cases hk : attrMatches nid2 ty2 nm2 a = true
      · simpa [List.filter_cons, hk] using ih
      · have hkf : attrMatches nid2 ty2 nm2 a = false := by simpa using hk
        simpa [List.filter_cons, hkf, firstAttrIs, hmf] using ih

theorem noAttr_filter_self (nid ty nm : String) (l : List BAttribute) :
    noAttr nid ty nm (l.filter (fun a => !(attrMatches nid ty nm a))) := by
  intro a ha
  have := List.of_mem_filter ha
  simpa using this

theorem noAttr_upsertAttr_other (nid ty nm nid2 ty2 nm2 v2 fid2 : String)
    (hdiff : ty ≠ ty2 ∨ nm ≠ nm2) :
    ∀ l, noAttr nid ty nm l → noAttr nid ty nm (upsertAttr nid2 ty2 nm2 v2 fid2 l)
  | [], _ => by
    intro a ha
    simp only [upsertAttr, List.mem_singleton] at ha
    subst ha
    simp only [attrMatches]
    rcases hdiff with hd | hd
    · have : (ty2 == ty) = false := by simpa using fun hh : ty2 = ty => hd hh.symm
      simp [this]
    · have : (nm2 == nm) = false := by simpa using fun hh : nm2 = nm => hd hh.symm
      simp [this]
  | a :: rest, h => by
    have hhead : attrMatches nid ty nm a = false := h a (List.mem_cons_self a rest)
    have htail : noAttr nid ty nm rest := fun x hx => h x (List.mem_cons_of_mem a hx)
    by_cases hm2 : attrMatches nid2 ty2 nm2 a = true
    · intro x hx
      simp only [upsertAttr, hm2, if_true, List.mem_cons] at hx
      rcases hx with hx | hx
      · subst hx
        rw [attrMatches_set_value]
        exact hhead
      · exact htail x hx
    · have hm2f : attrMatches nid2 ty2 nm2 a = false := by simpa using hm2
      intro x hx
      simp only [upsertAttr, hm2f, Bool.false_eq_true, if_false, List.mem_cons] at hx
      rcases hx with hx | hx
      · subst hx; exact hhead
      · exact noAttr_upsertAttr_other nid ty nm nid2 ty2 nm2 v2 fid2 hdiff rest htail x hx

theorem noAttr_filter (nid ty nm : String) (p : BAttribute → Bool) (l : List BAttribute)
    (h : noAttr nid ty nm l) : noAttr nid ty nm (l.filter p) :=
  fun a ha => h a (List.mem_of_mem_filter ha)

theorem filter_of_noAttr (nid ty nm : String) (l : List BAttribute)
    (h : noAttr nid ty nm l) :
    l.filter (fun a => !(attrMatches nid ty nm a)) = l := by
  rw [List.filter_eq_self]
  intro a ha
  rw [h a ha]
  rfl

theorem any_of_firstAttrIs (nid ty nm v : String) :
    ∀ l, firstAttrIs nid ty nm v l → l.any (attrMatches nid ty nm) = true
  | [], h => absurd h (by simp [firstAttrIs])
  | a :: rest, h => by
    by_cases hm : attrMatches nid ty nm a = true
    · simp [List.any_cons, hm]
    · have hmf : attrMatches nid ty nm a = false := by simpa using hm
      have hrest : firstAttrIs nid ty nm v rest := by simpa [firstAttrIs, hmf] using h
      simp [List.any_cons, hmf, any_of_firstAttrIs nid ty nm v rest hrest]

theorem any_eq_false_of_noAttr (nid ty nm : String) (l : List BAttribute)
    (h : noAttr nid ty nm l) : l.any (attrMatches nid ty nm) = false := by
  rw [List.any_eq_false]
  intro a ha
  rw [h a ha]
  exact Bool.false_ne_true

/-! ## Entity-cache stage lemmas -/

theorem find?_saveTitle (nid t : String) :
    ∀ l : List BNote,
      (l.map (fun n => if n.noteId == nid then { n with title := t } else n)).find?
          (fun n => n.noteId == nid) =
        (l.find? (fun n => n.noteId == nid)).map (fun n => { n with title := t })
  | [] => rfl
  | n :: rest => by
    by_cases h : (n.noteId == nid) = true
    · simp [List.find?, h]
    · have hf : (n.noteId == nid) = false := by simpa using h
      simp only [List.map_cons, hf, Bool.false_eq_true, if_false, List.find?]
      exact find?_saveTitle nid t rest

theorem getNote_saveTitle (b : Becca) (nid t : String) :
    getNote (saveTitle b nid t) nid = (getNote b nid).map (fun n => { n with title := t }) :=
  find?_saveTitle nid t b.notes

theorem find?_append_none {α : Type} (p : α → Bool) :
    ∀ l1 l2 : List α, l1.find? p = none → (l1 ++ l2).find? p = l2.find? p
  | [], _, _ => rfl
  | a :: rest, l2, h => by
    by_cases hp : p a = true
    · rw [List.find?_cons_of_pos _ hp] at h
      cases h
    · have hpf : ¬ p a = true := hp
      rw [List.find?_cons_of_neg _ hpf] at h
      rw [List.cons_append, List.find?_cons_of_neg _ hpf]
      exact find?_append_none p rest l2 h

/-- The note entity that createLauncher inserts. -/
def freshLauncherNote (nid : String) : BNote := ⟨nid, "", "launcher", "", ""⟩

/-- The branch entity that createLauncher inserts. -/
def freshLauncherBranch (nid pid : String) : BBranch := ⟨pid ++ "_" ++ nid, nid, pid⟩

theorem getNote_createLauncher (b : Becca) (nid pid lt : String)
    (h : getNote b nid = none) :
    getNote (createLauncher b nid pid lt).1 nid = some (freshLauncherNote nid) := by
  show (b.notes ++ [freshLauncherNote nid]).find? (fun n => n.noteId == nid) = _
  rw [find?_append_none _ b.notes _ h]
  simp [List.find?, freshLauncherNote]

theorem filter_map_comm {α : Type} (f : α → α) (p : α → Bool)
    (hf : ∀ a, p (f a) = p a) :
    ∀ l : List α, (l.map f).filter p = (l.filter p).map f
  | [] => rfl
  | a :: rest => by
    by_cases h : p a = true
    · simp only [List.map_cons, List.filter_cons, hf a, h, if_true, List.map_cons]
      rw [filter_map_comm f p hf rest]
    · have hfl : p a = false := by simpa using h
      simp only [List.map_cons, List.filter_cons, hf a, hfl, Bool.false_eq_true, if_false]
      exact filter_map_comm f p hf rest

theorem getParentBranches_move (b : Becca) (brId pid2 nid : String) :
    getParentBranches (moveBranchToNote b brId pid2) nid =
      (getParentBranches b nid).map
        (fun x => if x.branchId == brId then { x with parentNoteId := pid2 } else x) := by
  show (b.branches.map _).filter _ = _
  exact filter_map_comm _ _
    (fun a => by by_cases h : (a.branchId == brId) = true <;> simp [h]) b.branches

theorem getParentBranches_createLauncher (b : Becca) (nid pid lt : String) :
    getParentBranches (createLauncher b nid pid lt).1 nid =
      getParentBranches b nid ++ [freshLauncherBranch nid pid] := by
  show (b.branches ++ [freshLauncherBranch nid pid]).filter (fun br => br.noteId == nid) = _
  rw [List.filter_append]
  simp [getParentBranches, freshLauncherBranch]

theorem getNote_branchStage (nid pid : String) (b : Becca) (x : String) :
    getNote (launcherBranchStage nid pid b) x = getNote b x := by
  unfold launcherBranchStage
  cases hgp : getParentBranches b nid with
  | nil => rfl
  | cons br tl =>
    cases tl with
    | nil =>
      show getNote (if br.parentNoteId ≠ pid then
        moveBranchToNote b br.branchId pid else b) x = getNote b x
      by_cases hne : br.parentNoteId ≠ pid
      · rw [if_pos hne]
        rfl
      · rw [if_neg hne]
    | cons y ys => rfl

theorem branches_saveTitle (b : Becca) (nid t : String) :
    (saveTitle b nid t).branches = b.branches := rfl

theorem branches_labelStage (opts : LauncherOpts) (nid : String) (b : Becca) :
    (launcherLabelStage opts nid b).branches = b.branches := by
  unfold launcherLabelStage launcherIconStage launcherShortcutStage
  by_cases h1 : strTruthy opts.keyboardShortcut = true <;>
    by_cases h2 : strTruthy opts.icon = true <;>
      simp [h1, h2, setLabel, removeLabel]

theorem notes_labelStage (opts : LauncherOpts) (nid : String) (b : Becca) :
    (launcherLabelStage opts nid b).notes = b.notes := by
  unfold launcherLabelStage launcherIconStage launcherShortcutStage
  by_cases h1 : strTruthy opts.keyboardShortcut = true <;>
    by_cases h2 : strTruthy opts.icon = true <;>
      simp [h1, h2, setLabel, removeLabel]

/-! ## Stage behaviour lemmas -/

theorem launcherEnsureStage_found (nid pid lt t : String) (b : Becca) (n : BNote)
    (h : getNote b nid = some n) (ht : n.title = t) :
    launcherEnsureStage nid pid lt t b = b := by
  unfold launcherEnsureStage
  rw [h]
  simp [ht]

theorem launcherEnsureStage_getNote (nid pid lt t : String) (b : Becca) :
    ∃ nt, getNote (launcherEnsureStage nid pid lt t b) nid = some nt ∧ nt.title = t := by
  unfold launcherEnsureStage
  cases h : getNote b nid with
  | some n =>
    show ∃ nt, getNote (if n.title ≠ t then saveTitle b nid t else b) nid = some nt ∧
      nt.title = t
    by_cases hne : n.title ≠ t
    · refine ⟨{ n with title := t }, ?_, rfl⟩
      rw [if_pos hne, getNote_saveTitle, h]
      rfl
    · push_neg at hne
      exact ⟨n, by rw [if_neg (by simpa using hne)]; exact h, hne⟩
  | none =>
    have h0 : getNote (createLauncher b nid pid lt).1 nid = some (freshLauncherNote nid) :=
      getNote_createLauncher b nid pid lt h
    show ∃ nt, getNote (if ("" : String) ≠ t then
        saveTitle (createLauncher b nid pid lt).1 nid t
      else (createLauncher b nid pid lt).1) nid = some nt ∧ nt.title = t
    by_cases hne : ("" : String) ≠ t
    · refine ⟨⟨nid, t, "launcher", "", ""⟩, ?_, rfl⟩
      rw [if_pos hne, getNote_saveTitle, h0]
      rfl
    · push_neg at hne
      refine ⟨freshLauncherNote nid, ?_, hne⟩
      rw [if_neg (by simpa using hne)]
      exact h0

/-- The launcher's single parent branch, when single, points at the
desired container. -/
def branchStable (nid pid : String) (b : Becca) : Prop :=
  match getParentBranches b nid with
  | [br] => br.parentNoteId = pid
  | _ => True

theorem branchStable_congr (nid pid : String) (b b2 : Becca)
    (h : b2.branches = b.branches) (hs : branchStable nid pid b) :
    branchStable nid pid b2 := by
  unfold branchStable at *
  have : getParentBranches b2 nid = getParentBranches b nid := by
    unfold getParentBranches
    rw [h]
  rw [this]
  exact hs

theorem launcherBranchStage_stable (nid pid : String) (b : Becca) :
    branchStable nid pid (launcherBranchStage nid pid b) := by
  unfold launcherBranchStage
  cases hgp : getParentBranches b nid with
  | nil =>
    show branchStable nid pid b
    unfold branchStable
    rw [hgp]
    exact trivial
  | cons br tl =>
    cases tl with
    | nil =>
      show branchStable nid pid (if br.parentNoteId ≠ pid then
        moveBranchToNote b br.branchId pid else b)
      by_cases hne : br.parentNoteId ≠ pid
      · rw [if_pos hne]
        unfold branchStable
        rw [getParentBranches_move, hgp]
        simp
      · rw [if_neg hne]
        push_neg at hne
        unfold branchStable
        rw [hgp]
        exact hne
    | cons y ys =>
      show branchStable nid pid b
      unfold branchStable
      rw [hgp]
      exact trivial

theorem launcherBranchStage_of_stable (nid pid : String) (b : Becca)
    (h : branchStable nid pid b) : launcherBranchStage nid pid b = b := by
  unfold branchStable at h
  unfold launcherBranchStage
  cases hgp : getParentBranches b nid with
  | nil => rfl
  | cons br tl =>
    cases tl with
    | nil =>
      rw [hgp] at h
      have h2 : br.parentNoteId = pid := h
      show (if br.parentNoteId ≠ pid then moveBranchToNote b br.branchId pid else b) = b
      rw [if_neg (by simpa using h2)]
    | cons y ys => rfl

/-- The kind-specific relation chosen by opts.type. -/
def relSpecOf (opts : LauncherOpts) : Option (String × String) :=
  if opts.type == some "note" then some ("target", opts.targetNoteId.getD "")
  else if opts.type == some "script" then some ("script", opts.scriptNoteId.getD "")
  else if opts.type == some "customWidget" then some ("widget", opts.widgetNoteId.getD "")
  else none

theorem relationStage_eq (opts : LauncherOpts) (nid : String) (b : Becca) :
    launcherRelationStage opts nid b =
      match relSpecOf opts with
      | some (rn, rv) => .ok (setRelation b nid rn rv)
      | none =>
        .error (.jsError ("Unrecognized launcher type \x27" ++ opts.type.getD "" ++ "\x27")) := by
  unfold launcherRelationStage relSpecOf
  by_cases h1 : (opts.type == some "note") = true
  · simp [h1]
  · by_cases h2 : (opts.type == some "script") = true
    · simp [h1, h2]
    · by_cases h3 : (opts.type == some "customWidget") = true
      · simp [h1, h2, h3]
      · simp [h1, h2, h3]

/-! ## Becca-level reconciliation lemmas -/

theorem getNote_congr (b b2 : Becca) (h : b2.notes = b.notes) (x : String) :
    getNote b2 x = getNote b x := by
  unfold getNote
  rw [h]

theorem getParentBranches_congr (b b2 : Becca) (h : b2.branches = b.branches) (x : String) :
    getParentBranches b2 x = getParentBranches b x := by
  unfold getParentBranches
  rw [h]

theorem setRelation_eq_self (b : Becca) (nid nm v : String)
    (h : firstAttrIs nid "relation" nm v b.attributes) : setRelation b nid nm v = b := by
  unfold setRelation
  rw [upsertAttr_of_firstAttrIs nid "relation" nm v (nid ++ "_rel_" ++ nm) b.attributes h]

theorem setLabel_eq_self (b : Becca) (nid nm v : String)
    (h : firstAttrIs nid "label" nm v b.attributes) : setLabel b nid nm v = b := by
  unfold setLabel
  rw [upsertAttr_of_firstAttrIs nid "label" nm v (nid ++ "_lab_" ++ nm) b.attributes h]

theorem removeLabel_eq_self (b : Becca) (nid nm : String)
    (h : noAttr nid "label" nm b.attributes) : removeLabel b nid nm = b := by
  unfold removeLabel
  rw [filter_of_noAttr nid "label" nm b.attributes h]

theorem firstRel_shortcutStage (opts : LauncherOpts) (nid rn rv : String) (b : Becca)
    (h : firstAttrIs nid "relation" rn rv b.attributes) :
    firstAttrIs nid "relation" rn rv (launcherShortcutStage opts nid b).attributes := by
  unfold launcherShortcutStage
  by_cases h1 : strTruthy opts.keyboardShortcut = true
  · rw [if_pos h1]
    exact firstAttrIs_upsertAttr_other nid "relation" rn rv nid "label" "keyboardShortcut"
      (opts.keyboardShortcut.getD "") (nid ++ "_lab_" ++ "keyboardShortcut")
      (Or.inl (by decide)) b.attributes h
  · rw [if_neg h1]
    exact firstAttrIs_filter_other nid "relation" rn rv nid "label" "keyboardShortcut"
      (Or.inl (by decide)) b.attributes h

theorem firstRel_iconStage (opts : LauncherOpts) (nid rn rv : String) (b : Becca)
    (h : firstAttrIs nid "relation" rn rv b.attributes) :
    firstAttrIs nid "relation" rn rv (launcherIconStage opts nid b).attributes := by
  unfold launcherIconStage
  by_cases h2 : strTruthy opts.icon = true
  · rw [if_pos h2]
    exact firstAttrIs_upsertAttr_other nid "relation" rn rv nid "label" "iconClass"
      ("bx " ++ opts.icon.getD "") (nid ++ "_lab_" ++ "iconClass")
      (Or.inl (by decide)) b.attributes h
  · rw [if_neg h2]
    exact firstAttrIs_filter_other nid "relation" rn rv nid "label" "iconClass"
      (Or.inl (by decide)) b.attributes h

theorem firstRel_labelStage (opts : LauncherOpts) (nid rn rv : String) (b : Becca)
    (h : firstAttrIs nid "relation" rn rv b.attributes) :
    firstAttrIs nid "relation" rn rv (launcherLabelStage opts nid b).attributes :=
  firstRel_iconStage opts nid rn rv _ (firstRel_shortcutStage opts nid rn rv b h)

theorem shortcutFirst_iconStage (opts : LauncherOpts) (nid v : String) (b : Becca)
    (h : firstAttrIs nid "label" "keyboardShortcut" v b.attributes) :
    firstAttrIs nid "label" "keyboardShortcut" v (launcherIconStage opts nid b).attributes := by
  unfold launcherIconStage
  by_cases h2 : strTruthy opts.icon = true
  · rw [if_pos h2]
    exact firstAttrIs_upsertAttr_other nid "label" "keyboardShortcut" v nid "label" "iconClass"
      ("bx " ++ opts.icon.getD "") (nid ++ "_lab_" ++ "iconClass")
      (Or.inr (by decide)) b.attributes h
  · rw [if_neg h2]
    exact firstAttrIs_filter_other nid "label" "keyboardShortcut" v nid "label" "iconClass"
      (Or.inr (by decide)) b.attributes h

theorem shortcutNo_iconStage (opts : LauncherOpts) (nid : String) (b : Becca)
    (h : noAttr nid "label" "keyboardShortcut" b.attributes) :
    noAttr nid "label" "keyboardShortcut" (launcherIconStage opts nid b).attributes := by
  unfold launcherIconStage
  by_cases h2 : strTruthy opts.icon = true
  · rw [if_pos h2]
    exact noAttr_upsertAttr_other nid "label" "keyboardShortcut" nid "label" "iconClass"
      ("bx " ++ opts.icon.getD "") (nid ++ "_lab_" ++ "iconClass")
      (Or.inr (by decide)) b.attributes h
  · rw [if_neg h2]
    exact noAttr_filter nid "label" "keyboardShortcut" _ b.attributes h

theorem labelStage_shortcut_first (opts : LauncherOpts) (nid : String) (b : Becca)
    (h1 : strTruthy opts.keyboardShortcut = true) :
    firstAttrIs nid "label" "keyboardShortcut" (opts.keyboardShortcut.getD "")
      (launcherLabelStage opts nid b).attributes := by
  unfold launcherLabelStage
  apply shortcutFirst_iconStage
  unfold launcherShortcutStage
  rw [if_pos h1]
  exact firstAttrIs_upsertAttr nid "label" "keyboardShortcut" (opts.keyboardShortcut.getD "")
    (nid ++ "_lab_" ++ "keyboardShortcut") b.attributes

theorem labelStage_shortcut_no (opts : LauncherOpts) (nid : String) (b : Becca)
    (h1 : strTruthy opts.keyboardShortcut = false) :
    noAttr nid "label" "keyboardShortcut" (launcherLabelStage opts nid b).attributes := by
  unfold launcherLabelStage
  apply shortcutNo_iconStage
  unfold launcherShortcutStage
  rw [if_neg (by simp [h1])]
  exact noAttr_filter_self nid "label" "keyboardShortcut" b.attributes

theorem labelStage_icon_first (opts : LauncherOpts) (nid : String) (b : Becca)
    (h2 : strTruthy opts.icon = true) :
    firstAttrIs nid "label" "iconClass" ("bx " ++ opts.icon.getD "")
      (launcherLabelStage opts nid b).attributes := by
  unfold launcherLabelStage launcherIconStage
  rw [if_pos h2]
  exact firstAttrIs_upsertAttr nid "label" "iconClass" ("bx " ++ opts.icon.getD "")
    (nid ++ "_lab_" ++ "iconClass") _

theorem labelStage_icon_no (opts : LauncherOpts) (nid : String) (b : Becca)
    (h2 : strTruthy opts.icon = false) :
    noAttr nid "label" "iconClass" (launcherLabelStage opts nid b).attributes := by
  unfold launcherLabelStage launcherIconStage
  rw [if_neg (by simp [h2])]
  exact noAttr_filter_self nid "label" "iconClass" _

theorem labelStage_eq_self (opts : LauncherOpts) (nid : String) (b : Becca)
    (hksT : strTruthy opts.keyboardShortcut = true →
      firstAttrIs nid "label" "keyboardShortcut" (opts.keyboardShortcut.getD "") b.attributes)
    (hksF : strTruthy opts.keyboardShortcut = false →
      noAttr nid "label" "keyboardShortcut" b.attributes)
    (hicT : strTruthy opts.icon = true →
      firstAttrIs nid "label" "iconClass" ("bx " ++ opts.icon.getD "") b.attributes)
    (hicF : strTruthy opts.icon = false →
      noAttr nid "label" "iconClass" b.attributes) :
    launcherLabelStage opts nid b = b := by
  unfold launcherLabelStage
  have hshort : launcherShortcutStage opts nid b = b := by
    unfold launcherShortcutStage
    by_cases h1 : strTruthy opts.keyboardShortcut = true
    · rw [if_pos h1]
      exact setLabel_eq_self b nid "keyboardShortcut" (opts.keyboardShortcut.getD "")
        (hksT h1)
    · rw [if_neg h1]
      exact removeLabel_eq_self b nid "keyboardShortcut" (hksF (by simpa using h1))
  rw [hshort]
  unfold launcherIconStage
  by_cases h2 : strTruthy opts.icon = true
  · rw [if_pos h2]
    exact setLabel_eq_self b nid "iconClass" ("bx " ++ opts.icon.getD "") (hicT h2)
  · rw [if_neg h2]
    exact removeLabel_eq_self b nid "iconClass" (hicF (by simpa using h2))

/-! ## Shape and idempotence of the reconciliation core -/

theorem launcherCore_ok (opts : LauncherOpts) (nid pid : String) (b bOut : Becca) (n : String)
    (h : launcherCore opts nid pid b = .ok (bOut, n)) :
    n = nid ∧ ∃ rn rv, relSpecOf opts = some (rn, rv) ∧
      bOut = launcherLabelStage opts nid (setRelation
        (launcherBranchStage nid pid (launcherEnsureStage nid pid (opts.type.getD "")
          (opts.title.getD "") b)) nid rn rv) := by
  have h0 : (match launcherRelationStage opts nid
      (launcherBranchStage nid pid (launcherEnsureStage nid pid (opts.type.getD "")
        (opts.title.getD "") b)) with
    | Except.error e => Except.error e
    | Except.ok b3 => Except.ok (launcherLabelStage opts nid b3, nid)) =
      Except.ok (bOut, n) := h
  rw [relationStage_eq] at h0
  cases hrs : relSpecOf opts with
  | none =>
    rw [hrs] at h0
    exact absurd h0 (by simp)
  | some p =>
    obtain ⟨rn, rv⟩ := p
    rw [hrs] at h0
    have h2 : (Except.ok
        (launcherLabelStage opts nid (setRelation
          (launcherBranchStage nid pid (launcherEnsureStage nid pid (opts.type.getD "")
            (opts.title.getD "") b)) nid rn rv), nid) :
          Except JsException (Becca × String)) = Except.ok (bOut, n) := h0
    simp only [Except.ok.injEq, Prod.mk.injEq] at h2
    exact ⟨h2.2.symm, rn, rv, rfl, h2.1.symm⟩

theorem launcherCore_idem (opts : LauncherOpts) (nid pid : String) (b bOut : Becca)
    (n : String) (h : launcherCore opts nid pid b = .ok (bOut, n)) :
    launcherCore opts nid pid bOut = .ok (bOut, n) ∧ n = nid := by
  obtain ⟨hn, rn, rv, hrs, hbOut⟩ := launcherCore_ok opts nid pid b bOut n h
  refine ⟨?_, hn⟩
  rw [hn]
  obtain ⟨nt, hnt, htitle⟩ :=
    launcherEnsureStage_getNote nid pid (opts.type.getD "") (opts.title.getD "") b
  have hget : getNote bOut nid = some nt := by
    rw [hbOut, getNote_congr _ _ (notes_labelStage opts nid _) nid]
    show getNote (launcherBranchStage nid pid
      (launcherEnsureStage nid pid (opts.type.getD "") (opts.title.getD "") b)) nid = some nt
    rw [getNote_branchStage]
    exact hnt
  have hstable : branchStable nid pid bOut := by
    apply branchStable_congr nid pid
      (launcherBranchStage nid pid
        (launcherEnsureStage nid pid (opts.type.getD "") (opts.title.getD "") b)) bOut
    · rw [hbOut, branches_labelStage]
      rfl
    · exact launcherBranchStage_stable nid pid _
  have hrel : firstAttrIs nid "relation" rn rv bOut.attributes := by
    rw [hbOut]
    exact firstRel_labelStage opts nid rn rv _
      (firstAttrIs_upsertAttr nid "relation" rn rv (nid ++ "_rel_" ++ rn) _)
  have hksT : strTruthy opts.keyboardShortcut = true →
      firstAttrIs nid "label" "keyboardShortcut" (opts.keyboardShortcut.getD "")
        bOut.attributes := fun h1 => hbOut ▸ labelStage_shortcut_first opts nid _ h1
  have hksF : strTruthy opts.keyboardShortcut = false →
      noAttr nid "label" "keyboardShortcut" bOut.attributes :=
    fun h1 => hbOut ▸ labelStage_shortcut_no opts nid _ h1
  have hicT : strTruthy opts.icon = true →
      firstAttrIs nid "label" "iconClass" ("bx " ++ opts.icon.getD "") bOut.attributes :=
    fun h2 => hbOut ▸ labelStage_icon_first opts nid _ h2
  have hicF : strTruthy opts.icon = false →
      noAttr nid "label" "iconClass" bOut.attributes :=
    fun h2 => hbOut ▸ labelStage_icon_no opts nid _ h2
  unfold launcherCore
  rw [launcherEnsureStage_found nid pid (opts.type.getD "") (opts.title.getD "") bOut nt
    hget htitle]
  show (match launcherRelationStage opts nid (launcherBranchStage nid pid bOut) with
    | Except.error e => Except.error e
    | Except.ok b3 => Except.ok (launcherLabelStage opts nid b3, nid)) =
      Except.ok (bOut, nid)
  rw [launcherBranchStage_of_stable nid pid bOut hstable]
  rw [relationStage_eq, hrs]
  show Except.ok (launcherLabelStage opts nid (setRelation bOut nid rn rv), nid) =
    Except.ok (bOut, nid)
  rw [setRelation_eq_self bOut nid rn rv hrel]
  rw [labelStage_eq_self opts nid bOut hksT hksF hicT hicF]

/-! ## createOrUpdateLauncher theorems -/

theorem createOrUpdateLauncher_to_body (opts : LauncherOpts) (b : Becca)
    (r : Becca × String) (h : createOrUpdateLauncher opts b = .ok r) :
    launcherBody opts b = .ok r := by
  unfold createOrUpdateLauncher at h
  by_cases v1 : (!strTruthy opts.id) = true
  · rw [if_pos v1] at h
    exact absurd h (by simp)
  rw [if_neg v1] at h
  by_cases v2 : (!idRegexTest (opts.id.getD "")) = true
  · rw [if_pos v2] at h
    exact absurd h (by simp)
  rw [if_neg v2] at h
  by_cases v3 : (!strTruthy opts.type) = true
  · rw [if_pos v3] at h
    exact absurd h (by simp)
  rw [if_neg v3] at h
  by_cases v4 : (!(["note", "script", "customWidget"].contains (opts.type.getD ""))) = true
  · rw [if_pos v4] at h
    exact absurd h (by simp)
  rw [if_neg v4] at h
  by_cases v5 : (!titleTruthy opts.title) = true
  · rw [if_pos v5] at h
    exact absurd h (by simp)
  rw [if_neg v5] at h
  by_cases v6 : (opts.type == some "note" && !strTruthy opts.targetNoteId) = true
  · rw [if_pos v6] at h
    exact absurd h (by simp)
  rw [if_neg v6] at h
  by_cases v7 : (opts.type == some "script" && !strTruthy opts.scriptNoteId) = true
  · rw [if_pos v7] at h
    exact absurd h (by simp)
  rw [if_neg v7] at h
  by_cases v8 : (opts.type == some "customWidget" && !strTruthy opts.widgetNoteId) = true
  · rw [if_pos v8] at h
    exact absurd h (by simp)
  rw [if_neg v8] at h
  exact h

/-- C1: reconciliation is idempotent: when createOrUpdateLauncher succeeds
with state b1 and entity id n1, calling it again with identical inputs
succeeds with exactly the same state b1 and the same id n1 — no additional
note, branch or attribute — and the id is al_ plus the requested id. -/
theorem createOrUpdateLauncher_idempotent (opts : LauncherOpts) (b b1 : Becca) (n1 : String)
    (h : createOrUpdateLauncher opts b = .ok (b1, n1)) :
    createOrUpdateLauncher opts b1 = .ok (b1, n1) ∧ n1 = "al_" ++ opts.id.getD "" := by
  unfold createOrUpdateLauncher at h ⊢
  by_cases v1 : (!strTruthy opts.id) = true
  · rw [if_pos v1] at h
    exact absurd h (by simp)
  rw [if_neg v1] at h ⊢
  by_cases v2 : (!idRegexTest (opts.id.getD "")) = true
  · rw [if_pos v2] at h
    exact absurd h (by simp)
  rw [if_neg v2] at h ⊢
  by_cases v3 : (!strTruthy opts.type) = true
  · rw [if_pos v3] at h
    exact absurd h (by simp)
  rw [if_neg v3] at h ⊢
  by_cases v4 : (!(["note", "script", "customWidget"].contains (opts.type.getD ""))) = true
  · rw [if_pos v4] at h
    exact absurd h (by simp)
  rw [if_neg v4] at h ⊢
  by_cases v5 : (!titleTruthy opts.title) = true
  · rw [if_pos v5] at h
    exact absurd h (by simp)
  rw [if_neg v5] at h ⊢
  by_cases v6 : (opts.type == some "note" && !strTruthy opts.targetNoteId) = true
  · rw [if_pos v6] at h
    exact absurd h (by simp)
  rw [if_neg v6] at h ⊢
  by_cases v7 : (opts.type == some "script" && !strTruthy opts.scriptNoteId) = true
  · rw [if_pos v7] at h
    exact absurd h (by simp)
  rw [if_neg v7] at h ⊢
  by_cases v8 : (opts.type == some "customWidget" && !strTruthy opts.widgetNoteId) = true
  · rw [if_pos v8] at h
    exact absurd h (by simp)
  rw [if_neg v8] at h ⊢
  unfold launcherBody at h ⊢
  exact launcherCore_idem opts ("al_" ++ opts.id.getD "")
    (if opts.isVisible then "_lbVisibleLaunchers" else "_lbAvailableLaunchers") b b1 n1 h

/-- The launcher spec used by the idempotence witness. -/
def c1Opts : LauncherOpts :=
  { id := some "launch01", type := some "note", title := some "My launcher",
    targetNoteId := some "root", keyboardShortcut := some "ctrl+e", icon := some "bx-time" }

/-- The entity state produced by reconciling c1Opts against the empty
cache. -/
def c1State : Becca :=
  ⟨[⟨"al_launch01", "My launcher", "launcher", "", ""⟩],
   [⟨"_lbAvailableLaunchers_al_launch01", "al_launch01", "_lbAvailableLaunchers"⟩],
   [⟨"al_launch01_lab_launcherType", "al_launch01", "label", "launcherType", "note", false⟩,
    ⟨"al_launch01_rel_target", "al_launch01", "relation", "target", "root", false⟩,
    ⟨"al_launch01_lab_keyboardShortcut", "al_launch01", "label", "keyboardShortcut",
      "ctrl+e", false⟩,
    ⟨"al_launch01_lab_iconClass", "al_launch01", "label", "iconClass", "bx bx-time", false⟩]⟩

/-- Witness for C1: both calls yield the same state and the same id. -/
theorem createOrUpdateLauncher_idempotent_witness :
    createOrUpdateLauncher c1Opts emptyBecca = .ok (c1State, "al_launch01") ∧
    createOrUpdateLauncher c1Opts c1State = .ok (c1State, "al_launch01") ∧
    "al_launch01" = "al_" ++ c1Opts.id.getD "" := by
  have h : createOrUpdateLauncher c1Opts emptyBecca = .ok (c1State, "al_launch01") := by
    rfl
  have h2 := createOrUpdateLauncher_idempotent c1Opts emptyBecca c1State "al_launch01" h
  exact ⟨h, h2.1, h2.2⟩

/-- C5: optional fields are reconciled by presence: a call that supplies
keyboardShortcut leaves the label present; a following call on the same id
that omits keyboardShortcut (and icon) leaves the launcher with no
keyboardShortcut label and no iconClass label. -/
theorem launcher_labels_reconciled_by_presence
    (o1 o2 : LauncherOpts) (b b1 b2 : Becca) (n1 n2 : String)
    (hset : strTruthy o1.keyboardShortcut = true)
    (h1 : createOrUpdateLauncher o1 b = .ok (b1, n1))
    (hid : o2.id = o1.id)
    (hks : strTruthy o2.keyboardShortcut = false)
    (hic : strTruthy o2.icon = false)
    (h2 : createOrUpdateLauncher o2 b1 = .ok (b2, n2)) :
    n2 = n1 ∧
    b1.attributes.any (attrMatches n1 "label" "keyboardShortcut") = true ∧
    b2.attributes.any (attrMatches n2 "label" "keyboardShortcut") = false ∧
    b2.attributes.any (attrMatches n2 "label" "iconClass") = false := by
  obtain ⟨hn1, rn1, rv1, hrs1, hb1⟩ := launcherCore_ok o1 ("al_" ++ o1.id.getD "")
    (if o1.isVisible then "_lbVisibleLaunchers" else "_lbAvailableLaunchers") b b1 n1
    (createOrUpdateLauncher_to_body o1 b (b1, n1) h1)
  obtain ⟨hn2, rn2, rv2, hrs2, hb2⟩ := launcherCore_ok o2 ("al_" ++ o2.id.getD "")
    (if o2.isVisible then "_lbVisibleLaunchers" else "_lbAvailableLaunchers") b1 b2 n2
    (createOrUpdateLauncher_to_body o2 b1 (b2, n2) h2)
  refine ⟨by rw [hn1, hn2, hid], ?_, ?_, ?_⟩
  · rw [hn1, hb1]
    exact any_of_firstAttrIs _ _ _ (o1.keyboardShortcut.getD "") _
      (labelStage_shortcut_first o1 _ _ hset)
  · rw [hn2, hb2]
    exact any_eq_false_of_noAttr _ _ _ _ (labelStage_shortcut_no o2 _ _ hks)
  · rw [hn2, hb2]
    exact any_eq_false_of_noAttr _ _ _ _ (labelStage_icon_no o2 _ _ hic)

/-- Witness for C5 on concrete calls: shortcut and icon set by the first
call, both absent after the second call omits them. -/
theorem launcher_labels_reconciled_by_presence_witness :
    strTruthy c1Opts.keyboardShortcut = true ∧
    createOrUpdateLauncher c1Opts emptyBecca = .ok (c1State, "al_launch01") ∧
    ({ c1Opts with keyboardShortcut := none, icon := none } : LauncherOpts).id = c1Opts.id ∧
    strTruthy ({ c1Opts with keyboardShortcut := none, icon := none } :
      LauncherOpts).keyboardShortcut = false ∧
    strTruthy ({ c1Opts with keyboardShortcut := none, icon := none } :
      LauncherOpts).icon = false ∧
    ∃ b2, createOrUpdateLauncher { c1Opts with keyboardShortcut := none, icon := none }
        c1State = .ok (b2, "al_launch01") ∧
      b2.attributes.any (attrMatches "al_launch01" "label" "keyboardShortcut") = false ∧
      b2.attributes.any (attrMatches "al_launch01" "label" "iconClass") = false := by
  refine ⟨rfl, rfl, rfl, rfl, rfl, ?_⟩
  refine ⟨_, rfl, ?_, ?_⟩
  · exact (launcher_labels_reconciled_by_presence c1Opts
      { c1Opts with keyboardShortcut := none, icon := none } emptyBecca c1State _
      "al_launch01" "al_launch01" rfl rfl rfl rfl rfl rfl).2.2.1
  · exact (launcher_labels_reconciled_by_presence c1Opts
      { c1Opts with keyboardShortcut := none, icon := none } emptyBecca c1State _
      "al_launch01" "al_launch01" rfl rfl rfl rfl rfl rfl).2.2.2

/-! ## C8: single-parent branch relocation -/

theorem branchStage_cases (nid pid : String) (b : Becca) :
    (∀ br, getParentBranches b nid = [br] → br.parentNoteId ≠ pid →
      launcherBranchStage nid pid b = moveBranchToNote b br.branchId pid) ∧
    (∀ br, getParentBranches b nid = [br] → br.parentNoteId = pid →
      launcherBranchStage nid pid b = b) ∧
    ((getParentBranches b nid).length ≠ 1 → launcherBranchStage nid pid b = b) := by
  refine ⟨?_, ?_, ?_⟩
  · intro br hbr hne
    unfold launcherBranchStage
    rw [hbr]
    show (if br.parentNoteId ≠ pid then moveBranchToNote b br.branchId pid else b) = _
    rw [if_pos hne]
  · intro br hbr heq
    unfold launcherBranchStage
    rw [hbr]
    show (if br.parentNoteId ≠ pid then moveBranchToNote b br.branchId pid else b) = b
    rw [if_neg (by simpa using heq)]
  · intro hlen
    unfold launcherBranchStage
    cases hgp : getParentBranches b nid with
    | nil => rfl
    | cons br tl =>
      cases tl with
      | nil =>
        rw [hgp] at hlen
        exact absurd rfl hlen
      | cons y ys => rfl

theorem branches_ensureStage_found (nid pid lt t : String) (b : Becca) (nt : BNote)
    (hex : getNote b nid = some nt) :
    (launcherEnsureStage nid pid lt t b).branches = b.branches := by
  unfold launcherEnsureStage
  rw [hex]
  show (if nt.title ≠ t then saveTitle b nid t else b).branches = b.branches
  by_cases hne : nt.title ≠ t
  · rw [if_pos hne]
    rfl
  · rw [if_neg hne]

/-- C8: when an existing launcher is reconciled, its single parent branch
is relocated in place to the desired container exactly when that branch's
parent differs from it: the very same branch (same branchId) is
re-parented, and with zero or several parent branches (or a parent already
equal to the container) the branch set is untouched. -/
theorem launcher_single_parent_branch_relocation
    (opts : LauncherOpts) (b b1 : Becca) (n1 : String) (nt : BNote)
    (h : createOrUpdateLauncher opts b = .ok (b1, n1))
    (hex : getNote b n1 = some nt) :
    (∀ br, getParentBranches b n1 = [br] →
      br.parentNoteId ≠ (if opts.isVisible then "_lbVisibleLaunchers"
        else "_lbAvailableLaunchers") →
      b1.branches = b.branches.map (fun x => if x.branchId == br.branchId then
        { x with parentNoteId := (if opts.isVisible then "_lbVisibleLaunchers"
          else "_lbAvailableLaunchers") } else x)) ∧
    (∀ br, getParentBranches b n1 = [br] →
      br.parentNoteId = (if opts.isVisible then "_lbVisibleLaunchers"
        else "_lbAvailableLaunchers") →
      b1.branches = b.branches) ∧
    ((getParentBranches b n1).length ≠ 1 → b1.branches = b.branches) := by
  obtain ⟨hn1, rn, rv, hrs, hb1⟩ := launcherCore_ok opts ("al_" ++ opts.id.getD "")
    (if opts.isVisible then "_lbVisibleLaunchers" else "_lbAvailableLaunchers") b b1 n1
    (createOrUpdateLauncher_to_body opts b (b1, n1) h)
  subst hn1
  have hens : (launcherEnsureStage ("al_" ++ opts.id.getD "")
      (if opts.isVisible then "_lbVisibleLaunchers" else "_lbAvailableLaunchers")
      (opts.type.getD "") (opts.title.getD "") b).branches = b.branches :=
    branches_ensureStage_found _ _ _ _ b nt hex
  have hgpb : getParentBranches (launcherEnsureStage ("al_" ++ opts.id.getD "")
      (if opts.isVisible then "_lbVisibleLaunchers" else "_lbAvailableLaunchers")
      (opts.type.getD "") (opts.title.getD "") b) ("al_" ++ opts.id.getD "") =
      getParentBranches b ("al_" ++ opts.id.getD "") :=
    getParentBranches_congr b _ hens _
  have hb1br : b1.branches = (launcherBranchStage ("al_" ++ opts.id.getD "")
      (if opts.isVisible then "_lbVisibleLaunchers" else "_lbAvailableLaunchers")
      (launcherEnsureStage ("al_" ++ opts.id.getD "")
        (if opts.isVisible then "_lbVisibleLaunchers" else "_lbAvailableLaunchers")
        (opts.type.getD "") (opts.title.getD "") b)).branches := by
    rw [hb1, branches_labelStage]
    rfl
  obtain ⟨hc1, hc2, hc3⟩ := branchStage_cases ("al_" ++ opts.id.getD "")
    (if opts.isVisible then "_lbVisibleLaunchers" else "_lbAvailableLaunchers")
    (launcherEnsureStage ("al_" ++ opts.id.getD "")
      (if opts.isVisible then "_lbVisibleLaunchers" else "_lbAvailableLaunchers")
      (opts.type.getD "") (opts.title.getD "") b)
  refine ⟨?_, ?_, ?_⟩
  · intro br hbr hne
    rw [hb1br, hc1 br (by rw [hgpb]; exact hbr) hne]
    show ((launcherEnsureStage _ _ _ _ b).branches.map _) = _
    rw [hens]
  · intro br hbr heq
    rw [hb1br, hc2 br (by rw [hgpb]; exact hbr) heq]
    exact hens
  · intro hlen
    rw [hb1br, hc3 (by rw [hgpb]; exact hlen)]
    exact hens

/-- The pre-state of the C8 witness: an existing launcher sitting under
the visible container. -/
def c8Becca : Becca :=
  ⟨[⟨"al_launch02", "Old", "launcher", "", ""⟩],
   [⟨"br1", "al_launch02", "_lbVisibleLaunchers"⟩], []⟩

/-- The C8 witness spec: reconcile the existing launcher as not visible. -/
def c8Opts : LauncherOpts :=
  { id := some "launch02", type := some "note", title := some "T",
    targetNoteId := some "root", isVisible := false }

/-- The post-state of the C8 witness: same branchId, new parent. -/
def c8State : Becca :=
  ⟨[⟨"al_launch02", "T", "launcher", "", ""⟩],
   [⟨"br1", "al_launch02", "_lbAvailableLaunchers"⟩],
   [⟨"al_launch02_rel_target", "al_launch02", "relation", "target", "root", false⟩]⟩

/-- Witness for C8: the single existing branch br1 is relocated in place
from the visible container to the available container. -/
theorem launcher_single_parent_branch_relocation_witness :
    createOrUpdateLauncher c8Opts c8Becca = .ok (c8State, "al_launch02") ∧
    getNote c8Becca "al_launch02" = some ⟨"al_launch02", "Old", "launcher", "", ""⟩ ∧
    getParentBranches c8Becca "al_launch02" = [⟨"br1", "al_launch02", "_lbVisibleLaunchers"⟩] ∧
    ("_lbVisibleLaunchers" : String) ≠
      (if c8Opts.isVisible then "_lbVisibleLaunchers" else "_lbAvailableLaunchers") ∧
    c8State.branches = c8Becca.branches.map (fun x => if x.branchId == "br1" then
      { x with parentNoteId := (if c8Opts.isVisible then "_lbVisibleLaunchers"
        else "_lbAvailableLaunchers") } else x) := by
  refine ⟨rfl, rfl, rfl, by decide, ?_⟩
  exact (launcher_single_parent_branch_relocation c8Opts c8Becca c8State "al_launch02"
    ⟨"al_launch02", "Old", "launcher", "", ""⟩ rfl rfl).1
    ⟨"br1", "al_launch02", "_lbVisibleLaunchers"⟩ rfl (by decide)

/-! ## C3: the id validation regex is unanchored (code bug) -/

/-- C3 exhibit: the id string abcdef! is not an alphanumeric string (it
contains a non-alphanumeric character), yet createOrUpdateLauncher accepts
it — the unanchored regex [a-z0-9]\x7b6,1000\x7d/i only requires some run
of six alphanumerics somewhere in the id — and proceeds to create the
launcher instead of failing validation. -/
theorem launcher_id_validation_accepts_invalid_id :
    ("abcdef!".toList.all isAlnumChar = false) ∧
    ("abcdef!".length ≥ 6) ∧
    ∃ b1, createOrUpdateLauncher
      { id := some "abcdef!", type := some "note", title := some "X",
        targetNoteId := some "root" } emptyBecca = .ok (b1, "al_abcdef!") ∧
      getNote b1 "al_abcdef!" ≠ none := by
  refine ⟨by decide, by decide, ⟨_, rfl, by decide⟩⟩

end TriliumApi
